import Mathlib

/-!
Shallow embedding of the page-based storage engine of the toydb repository
(src/storage/relational: page.rs, disk_manager.rs, clock_replacer.rs,
buffer_pool.rs) together with proofs about the embedded operations.

Conventions of the embedding:
* A page's byte buffer `[u8; PAGE_SIZE]` is modelled as a total function
  `Nat → Nat`; every read applies `% 256`, mirroring the `u8` element type.
* Machine integers are `Nat` with explicit wrap-around (`% 2^32` for `u32`
  arithmetic, `% 2^64` for `usize` arithmetic) exactly where the Rust source
  performs fixed-width arithmetic.
* A fallible Rust method returning `Result<T>` on `&mut self` is modelled as
  `σ → Option (Except Unit T × σ)`.  The outer `Option` is `none` exactly when
  the Rust code panics (a failed `copy_from_slice` length check, a failed
  `copy_within` bound check, an out-of-bounds `Vec::remove`); `Except.error`
  models `Err(..)` (the message strings carried by `Error::Value` are
  abbreviated to `Unit`, only the ok/err distinction is ever used);
  `Except.ok` models `Ok(..)`.
* `str` values (table names in the header page) are modelled as their UTF-8
  byte lists; `str::from_utf8(..).unwrap()` followed by
  `trim_end_matches('\0')` is modelled as trimming trailing zero bytes (the
  `unwrap` panic on invalid UTF-8 is not modelled; every byte sequence that
  occurs in the theorems below is plain ASCII, for which `from_utf8`
  succeeds).
-/

/-- `PAGE_SIZE` from page.rs (the source literally uses 4095). -/
def PAGE_SIZE : Nat := 4095

/-- 2^32, the modulus of `u32` arithmetic. -/
def M32 : Nat := 4294967296

/-- 2^64, the modulus of `usize` arithmetic (64-bit target). -/
def M64 : Nat := 18446744073709551616

/-- Wrapping `u32` addition. -/
def w32add (a b : Nat) : Nat := (a + b) % M32

/-- Wrapping `u32` subtraction. -/
def w32sub (a b : Nat) : Nat := (a % M32 + (M32 - b % M32)) % M32

/-- Wrapping `usize` subtraction (64-bit). -/
def u64sub (a b : Nat) : Nat := (a % M64 + (M64 - b % M64)) % M64

/-- `u32::to_le_bytes`. -/
def u32le (v : Nat) : List Nat :=
  [v % 256, v / 256 % 256, v / 65536 % 256, v / 16777216 % 256]

/-- Read one byte of a buffer (buffers hold `u8`, hence the `% 256`). -/
def byteAt (d : Nat → Nat) (i : Nat) : Nat := d i % 256

/-- Overwrite the bytes `[off, off + bs.length)` of a buffer with `bs`. -/
def wbytes (d : Nat → Nat) (off : Nat) (bs : List Nat) : Nat → Nat :=
  fun i => if off ≤ i ∧ i < off + bs.length then bs.getD (i - off) 0 else d i

/-- `slice::copy_within(s..e, dest)` on a buffer (bounds are checked by the
caller of this function, as Rust's `copy_within` panics on violation). -/
def copyWithin (d : Nat → Nat) (s e dest : Nat) : Nat → Nat :=
  fun i => if dest ≤ i ∧ i < dest + (e - s) then d (i - dest + s) else d i

/-- `u32::from_le_bytes` on a 4-byte list. -/
def fromLe4 (bs : List Nat) : Nat :=
  bs.getD 0 0 + 256 * bs.getD 1 0 + 65536 * bs.getD 2 0 + 16777216 * bs.getD 3 0

/-- Decode the little-endian `u32` stored at `off` in a buffer. -/
def readU32 (d : Nat → Nat) (off : Nat) : Nat :=
  byteAt d off + 256 * byteAt d (off + 1) + 65536 * byteAt d (off + 2) +
    16777216 * byteAt d (off + 3)

/-- The `len` bytes of a buffer starting at `off`, as a list. -/
def readBytes (d : Nat → Nat) (off len : Nat) : List Nat :=
  (List.range len).map (fun i => byteAt d (off + i))

/-- `Page` from page.rs: a fixed-size byte buffer plus identity. -/
structure Page where
  data : Nat → Nat
  pageId : Nat
  pinCount : Nat
  isDirty : Bool

/-- `Page::new`. -/
def Page.new (pageId : Nat) (data : Nat → Nat) : Option (Except Unit Page) :=
  some (Except.ok ⟨data, pageId, 0, false⟩)

/-- The clamped end position `end` computed by `Page::read_data` and
`Page::write_data`: the source first lowers `offset + len` to
`offset + buf.len()` when that is smaller, then lowers the result to
`PAGE_SIZE`; this is exactly the minimum of the three. -/
def rwEnd (offset len bufLen : Nat) : Nat :=
  min PAGE_SIZE (min (offset + len) (offset + bufLen))

/-- `Page::read_data(&self, data, offset, len)`.  `dstLen` is the length of
the destination buffer; the result carries the byte count returned by the
Rust function and the bytes copied into the destination.  The final
`copy_from_slice` panics (`none`) when the clamped source slice length
differs from `dstLen`. -/
def Page.read_data (p : Page) (dstLen offset len : Nat) :
    Option (Except Unit (Nat × List Nat)) :=
  if PAGE_SIZE < offset then some (Except.error ()) else
  if rwEnd offset len dstLen - offset = dstLen then
    some (Except.ok (rwEnd offset len dstLen - offset,
      readBytes p.data offset (rwEnd offset len dstLen - offset)))
  else none

/-- `Page::write_data(&mut self, data, offset, len)`.  Returns the byte count
and the updated page; the copied slice is `data[..end-offset]`, which always
exists, so this function never panics. -/
def Page.write_data (p : Page) (src : List Nat) (offset len : Nat) :
    Option (Except Unit (Nat × Page)) :=
  if PAGE_SIZE < offset then some (Except.error ()) else
  some (Except.ok (rwEnd offset len src.length - offset,
    ⟨wbytes p.data offset (src.take (rwEnd offset len src.length - offset)),
      p.pageId, p.pinCount, p.isDirty⟩))

/-- State-passing result monad for methods on `&mut σ`: `none` models a
panic, `Except.error` models `Err`, and the state is threaded through. -/
abbrev StateR (σ α : Type) := σ → Option (Except Unit α × σ)

/-- `Ok(a)` leaving the state unchanged. -/
def sok {σ α : Type} (a : α) : StateR σ α := fun s => some (Except.ok a, s)

/-- `Err(..)` leaving the state unchanged. -/
def serr {σ α : Type} : StateR σ α := fun s => some (Except.error (), s)

/-- Sequencing with `?`-propagation of errors and panics. -/
def sbind {σ α β : Type} (x : StateR σ α) (f : α → StateR σ β) : StateR σ β :=
  fun s =>
    match x s with
    | none => none
    | some (Except.error e, s1) => some (Except.error e, s1)
    | some (Except.ok a, s1) => f a s1

/-- `ClockStatus` from clock_replacer.rs. -/
structure ClockStatus where
  used : Bool
  edited : Bool
  deleted : Bool
  removed : Bool
deriving DecidableEq

/-- `ClockStatus::empty`. -/
def ClockStatus.empty : ClockStatus := ⟨false, false, false, false⟩

/-- `TablePage` from page.rs. -/
structure TablePage where
  page : Page
  status : ClockStatus

/-- Replace a table page's byte buffer (used by the write helpers). -/
def setData (tp : TablePage) (d : Nat → Nat) : TablePage :=
  ⟨⟨d, tp.page.pageId, tp.page.pinCount, tp.page.isDirty⟩, tp.status⟩

/-- Lift `Page::read_data` to a table-page state action (`&self` receiver,
state returned unchanged). -/
def tpRead (dstLen offset len : Nat) : StateR TablePage (Nat × List Nat) :=
  fun s =>
    match Page.read_data s.page dstLen offset len with
    | none => none
    | some (Except.error e) => some (Except.error e, s)
    | some (Except.ok r) => some (Except.ok r, s)

/-- Lift `Page::write_data` to a table-page state action. -/
def tpWrite (src : List Nat) (offset len : Nat) : StateR TablePage Nat :=
  fun s =>
    match Page.write_data s.page src offset len with
    | none => none
    | some (Except.error e) => some (Except.error e, s)
    | some (Except.ok (n, pg)) => some (Except.ok n, ⟨pg, s.status⟩)

/-- `self.status.used()`. -/
def stUsed : StateR TablePage Unit :=
  fun s => some (Except.ok (), ⟨s.page, true, s.status.edited, s.status.deleted, s.status.removed⟩)

/-- `self.status.edited()`. -/
def stEdited : StateR TablePage Unit :=
  fun s => some (Except.ok (), ⟨s.page, s.status.used, true, s.status.deleted, s.status.removed⟩)

/-- `*self.get_page_id()` (a struct field, not a page byte). -/
def stPageId : StateR TablePage Nat := fun s => some (Except.ok s.page.pageId, s)

/-- Read the little-endian `u32` field at byte offset `off` (the common
pattern `read_data(&mut [0u8; 4], off, 4)?` + `from_le_bytes`). -/
def readF4 (off : Nat) : StateR TablePage Nat :=
  sbind (tpRead 4 off 4) (fun r => sok (fromLe4 r.2))

/-- Write the little-endian `u32` field at byte offset `off`. -/
def writeF4 (off v : Nat) : StateR TablePage Nat := tpWrite (u32le v) off 4

/-- `RID` from tuple.rs. -/
structure RID where
  pageId : Nat
  slotNum : Nat
deriving DecidableEq

/-- `Tuple` from tuple.rs (`data: Vec<u8>`, optional RID, allocated flag). -/
structure Tuple where
  data : List Nat
  rid : Option RID
  allocated : Bool

/-- `TablePage::SIZE_TABLE_PAGE_HEADER`. -/
def SIZE_TABLE_PAGE_HEADER : Nat := 25

/-- `TablePage::SIZE_TUPLE` (slot entry size: offset u32 + size u32). -/
def SIZE_TUPLE : Nat := 8

/-- `TablePage::DELETE_MASK` (`1 << 31`). -/
def DELETE_MASK : Nat := 2147483648

/-- `TablePage::is_deleted(tuple_size)`. -/
def isDeletedSize (s : Nat) : Bool := (s &&& DELETE_MASK != 0) || (s == 0)

/-- `TablePage::set_deleted_flag`. -/
def setDeletedFlag (s : Nat) : Nat := s ||| DELETE_MASK

/-- `TablePage::unset_deleted_flag` (`size & !DELETE_MASK`). -/
def unsetDeletedFlag (s : Nat) : Nat := s &&& 2147483647

/-- `TablePage::get_free_space_pointer` (LE u32 at offset 17). -/
def getFreeSpacePointer : StateR TablePage Nat := readF4 17

/-- `TablePage::set_free_space_pointer`. -/
def setFreeSpacePointer (v : Nat) : StateR TablePage Unit :=
  sbind (writeF4 17 v) (fun _ => sok ())

/-- `TablePage::get_tuple_count` (LE u32 at offset 21). -/
def getTupleCount : StateR TablePage Nat := readF4 21

/-- `TablePage::set_tuple_count`. -/
def setTupleCount (v : Nat) : StateR TablePage Unit :=
  sbind (writeF4 21 v) (fun _ => sok ())

/-- `TablePage::get_free_space_remaining`:
`free_space_pointer - SIZE_TABLE_PAGE_HEADER as u32 - SIZE_TUPLE as u32 * tuple_count`
in wrapping `u32` arithmetic. -/
def getFreeSpaceRemaining : StateR TablePage Nat :=
  sbind getFreeSpacePointer (fun fsp =>
  sbind getTupleCount (fun c =>
  sok (w32sub (w32sub fsp SIZE_TABLE_PAGE_HEADER) (SIZE_TUPLE * c % M32))))

/-- `TablePage::get_tuple_offset_at_slot` (LE u32 at 25 + 8*slot). -/
def getTupleOffsetAtSlot (slot : Nat) : StateR TablePage Nat :=
  readF4 (25 + SIZE_TUPLE * slot)

/-- `TablePage::set_tuple_offset_at_slot`. -/
def setTupleOffsetAtSlot (slot v : Nat) : StateR TablePage Unit :=
  sbind (writeF4 (25 + SIZE_TUPLE * slot) v) (fun _ => sok ())

/-- `TablePage::get_tuple_size` (LE u32 at 29 + 8*slot). -/
def getTupleSize (slot : Nat) : StateR TablePage Nat :=
  readF4 (29 + SIZE_TUPLE * slot)

/-- `TablePage::set_tuple_size`. -/
def setTupleSize (slot v : Nat) : StateR TablePage Unit :=
  sbind (writeF4 (29 + SIZE_TUPLE * slot) v) (fun _ => sok ())

/-- Loop body of `TablePage::get_free_slot_array`: scan slots `i, i+1, ...`
(`fuel` many) for the first one whose stored size is `0`. -/
def freeSlotAux (i fuel : Nat) : StateR TablePage (Option Nat) :=
  match fuel with
  | 0 => sok none
  | fuel + 1 =>
    sbind (getTupleSize i) (fun s =>
    if s = 0 then sok (some i) else freeSlotAux (i + 1) fuel)

/-- `TablePage::get_free_slot_array`. -/
def getFreeSlotArray : StateR TablePage (Option Nat) :=
  sbind getTupleCount (fun c => freeSlotAux 0 c)

/-- `TablePage::new(page_id, prev_page_id, data)`.  Forbids id 0, stamps the
page id at offset 0, zeroes the tuple count, optionally writes the previous
page id, and resets the free-space pointer to `PAGE_SIZE`. -/
def TablePage.new (pageId : Nat) (prev : Option Nat) (data : Nat → Nat) :
    Option (Except Unit TablePage) :=
  if pageId = 0 then some (Except.error ()) else
  let tp0 : TablePage :=
    ⟨⟨data, pageId, 0, false⟩, ⟨true, false, false, false⟩⟩
  let run :=
    sbind (tpWrite (u32le pageId) 0 4) (fun _ =>
    sbind (setTupleCount 0) (fun _ =>
    sbind (match prev with
           | some pid => sbind (stEdited) (fun _ =>
               sbind (writeF4 9 pid) (fun _ => sok ()))
           | none => sok ()) (fun _ =>
    setFreeSpacePointer PAGE_SIZE)))
  match run tp0 with
  | none => none
  | some (Except.error e, _) => some (Except.error e)
  | some (Except.ok _, tp1) => some (Except.ok tp1)

/-- `TablePage::set_prev_page_id` (status.edited, then LE u32 at offset 9);
inlined inside `TablePage.new` above via the same write. -/
def setPrevPageId (v : Nat) : StateR TablePage Unit :=
  sbind stEdited (fun _ => sbind (writeF4 9 v) (fun _ => sok ()))

/-- `TablePage::insert_tuple`. -/
def insertTuple (t : List Nat) : StateR TablePage Bool :=
  if t.length = 0 then serr else
  sbind getFreeSpaceRemaining (fun rem =>
  if rem < (t.length + SIZE_TUPLE) % M32 then sok false else
  sbind getFreeSlotArray (fun fs =>
  sbind (match fs with
         | some i => sok i
         | none => getTupleCount) (fun slot =>
  sbind getFreeSpacePointer (fun fsp0 =>
  let fsp1 := w32sub fsp0 (t.length % M32)
  sbind (tpWrite t fsp1 t.length) (fun _ =>
  sbind (setFreeSpacePointer fsp1) (fun _ =>
  sbind (setTupleOffsetAtSlot slot fsp1) (fun _ =>
  sbind (setTupleSize slot (t.length % M32)) (fun _ =>
  sbind getTupleCount (fun c2 =>
  sbind (if slot = c2 then setTupleCount (w32add slot 1) else sok ()) (fun _ =>
  sbind stEdited (fun _ => sok true)))))))))))

/-- `TablePage::mark_delete`. -/
def markDelete (rid : RID) : StateR TablePage Bool :=
  sbind getTupleCount (fun c =>
  if c ≤ rid.slotNum then sok false else
  sbind (getTupleSize rid.slotNum) (fun s =>
  if isDeletedSize s then sok false else
  sbind (if 0 < s then setTupleSize rid.slotNum (setDeletedFlag s) else sok ())
    (fun _ =>
  sbind stEdited (fun _ => sok true))))

/-- `TablePage::page_is_deleted` (reads the one-byte flag at offset 4 and
returns `flag[0] == 0`, exactly as the source does). -/
def pageIsDeleted : StateR TablePage Bool :=
  sbind (tpRead 1 4 1) (fun r => sok (r.2.getD 0 0 == 0))

/-- `TablePage::delete_page`. -/
def deletePage : StateR TablePage Bool :=
  sbind pageIsDeleted (fun d =>
  if d then sok true else
  sbind (tpWrite [1] 4 1) (fun _ => sok true))

/-- `copy_within` on the table page's buffer with Rust's bound checks
(`none` models the panic). -/
def stCopyWithin (s e dest : Nat) : StateR TablePage Unit :=
  fun st =>
    if s ≤ e ∧ e ≤ PAGE_SIZE ∧ dest + (e - s) ≤ PAGE_SIZE then
      some (Except.ok (), setData st (copyWithin st.page.data s e dest))
    else none

/-- Slot-fixing loop of `TablePage::apply_delete`: for each slot, when its
offset lies below the removed tuple's offset, shift it up by `ts`. -/
def applyLoop (toff ts : Nat) : Nat → Nat → StateR TablePage Unit :=
  fun i fuel =>
  match fuel with
  | 0 => sok ()
  | fuel + 1 =>
    sbind (getTupleOffsetAtSlot i) (fun oi =>
    sbind (if oi < toff then setTupleOffsetAtSlot i (w32add oi ts) else sok ())
      (fun _ => applyLoop toff ts (i + 1) fuel))

/-- `TablePage::apply_delete`. -/
def applyDelete (rid : RID) : StateR TablePage Unit :=
  sbind stPageId (fun pid =>
  if pid ≠ rid.pageId then serr else
  sbind getTupleCount (fun c =>
  if c ≤ rid.slotNum then serr else
  sbind (getTupleSize rid.slotNum) (fun ts =>
  if ¬ isDeletedSize ts then serr else
  sbind (getTupleOffsetAtSlot rid.slotNum) (fun toff =>
  sbind getFreeSpacePointer (fun fsp =>
  if toff < fsp then serr else
  sbind (setTupleSize rid.slotNum 0) (fun _ =>
  sbind (setTupleOffsetAtSlot rid.slotNum 0) (fun _ =>
  sbind (setFreeSpacePointer (w32add fsp ts)) (fun _ =>
  sbind (stCopyWithin fsp toff (w32add fsp ts)) (fun _ =>
  sbind getTupleCount (fun c2 =>
  sbind (applyLoop toff ts 0 c2) (fun _ =>
  sbind stEdited (fun _ => sok ()))))))))))))

/-- Slot-fixing loop of `TablePage::update_tuple`: for each slot whose offset
lies below the updated tuple's old offset, shift it by `old - new` in
wrapping `u32` arithmetic. -/
def updateLoop (toff ts newSize : Nat) : Nat → Nat → StateR TablePage Unit :=
  fun i fuel =>
  match fuel with
  | 0 => sok ()
  | fuel + 1 =>
    sbind (getTupleOffsetAtSlot i) (fun oi =>
    sbind (if oi < toff then
             setTupleOffsetAtSlot i (w32sub (w32add oi ts) (newSize % M32))
           else sok ()) (fun _ =>
    updateLoop toff ts newSize (i + 1) fuel))

/-- `TablePage::update_tuple`. -/
def updateTuple (t : Tuple) : StateR TablePage Unit :=
  match t.rid with
  | none => serr
  | some rid =>
    let newSize := t.data.length
    let slot := rid.slotNum
    if newSize = 0 then serr else
    sbind getTupleCount (fun c =>
    if c ≤ slot then serr else
    sbind (getTupleSize slot) (fun ts =>
    if isDeletedSize ts then serr else
    sbind getFreeSpaceRemaining (fun rem =>
    if w32add rem ts < newSize % M32 then serr else
    sbind (getTupleOffsetAtSlot slot) (fun toff =>
    sbind getFreeSpacePointer (fun fsp =>
    if toff < fsp then serr else
    let dest := u64sub (fsp + ts) newSize
    sbind (stCopyWithin fsp toff dest) (fun _ =>
    sbind (setFreeSpacePointer (dest % M32)) (fun _ =>
    sbind (tpWrite t.data (u64sub (toff + ts) newSize) newSize) (fun _ =>
    sbind getTupleCount (fun c2 =>
    sbind (updateLoop toff ts newSize 0 c2) (fun _ =>
    sbind (setTupleOffsetAtSlot slot (w32sub (w32add (toff % M32) ts) (newSize % M32)))
      (fun _ =>
    sbind (setTupleSize slot (newSize % M32)) (fun _ =>
    sbind stEdited (fun _ => sok ())))))))))))))

/-- `TablePage::rollback_delete`. -/
def rollbackDelete (rid : RID) : StateR TablePage Unit :=
  sbind getTupleCount (fun c =>
  if c ≤ rid.slotNum then serr else
  sbind (getTupleSize rid.slotNum) (fun s =>
  sbind (if isDeletedSize s then setTupleSize rid.slotNum (unsetDeletedFlag s)
         else sok ()) (fun _ =>
  sbind stEdited (fun _ => sok ()))))

/-- `TablePage::get_tuple`. -/
def getTuple (rid : RID) : StateR TablePage (Option Tuple) :=
  sbind stPageId (fun pid =>
  if pid ≠ rid.pageId then serr else
  sbind getTupleCount (fun c =>
  if c ≤ rid.slotNum then sok none else
  sbind (getTupleSize rid.slotNum) (fun ts =>
  if isDeletedSize ts then sok none else
  sbind (getTupleOffsetAtSlot rid.slotNum) (fun toff =>
  sbind (tpRead ts toff ts) (fun r =>
  sbind stUsed (fun _ =>
  sok (some ⟨r.2, some ⟨pid, rid.slotNum⟩, true⟩)))))))

/-- `HeaderPage` from page.rs. -/
structure HeaderPage where
  page : Page

/-- Lift `Page::read_data` to a header-page state action. -/
def hpRead (dstLen offset len : Nat) : StateR HeaderPage (Nat × List Nat) :=
  fun s =>
    match Page.read_data s.page dstLen offset len with
    | none => none
    | some (Except.error e) => some (Except.error e, s)
    | some (Except.ok r) => some (Except.ok r, s)

/-- Lift `Page::write_data` to a header-page state action. -/
def hpWrite (src : List Nat) (offset len : Nat) : StateR HeaderPage Nat :=
  fun s =>
    match Page.write_data s.page src offset len with
    | none => none
    | some (Except.error e) => some (Except.error e, s)
    | some (Except.ok (n, pg)) => some (Except.ok n, ⟨pg⟩)

/-- `HeaderPage::get_record_count` (LE u32 at offset 0). -/
def getRecordCount : StateR HeaderPage Nat :=
  sbind (hpRead 4 0 4) (fun r => sok (fromLe4 r.2))

/-- `HeaderPage::set_record_count`. -/
def setRecordCount (v : Nat) : StateR HeaderPage Unit :=
  sbind (hpWrite (u32le v) 0 4) (fun _ => sok ())

/-- `HeaderPage::new(data)`: wraps the bytes as page 0 and zeroes the record
count. -/
def HeaderPage.new (data : Nat → Nat) : Option (Except Unit HeaderPage) :=
  let h0 : HeaderPage := ⟨⟨data, 0, 0, false⟩⟩
  match setRecordCount 0 h0 with
  | none => none
  | some (Except.error e, _) => some (Except.error e)
  | some (Except.ok _, h1) => some (Except.ok h1)

/-- `trim_end_matches('\0')` on the decoded name bytes. -/
def trimEndZeros (bs : List Nat) : List Nat :=
  (bs.reverse.dropWhile (fun b => b == 0)).reverse

/-- Loop body of `HeaderPage::find_record_num`: scan records `i, i+1, ...`
(`fuel` many), comparing each stored 32-byte name, with trailing zero bytes
trimmed, against `name`. -/
def findLoop (name : List Nat) (i fuel : Nat) : StateR HeaderPage (Option Nat) :=
  match fuel with
  | 0 => sok none
  | fuel + 1 =>
    sbind (hpRead 32 (i * 36 + 4) 32) (fun r =>
    if trimEndZeros r.2 = name then sok (some i) else findLoop name (i + 1) fuel)

/-- `HeaderPage::find_record_num`. -/
def findRecordNum (name : List Nat) : StateR HeaderPage (Option Nat) :=
  if 32 < name.length then sok none else
  sbind getRecordCount (fun c =>
  if c = 0 then sok none else
  findLoop name 0 c)

/-- `HeaderPage::insert_record`. -/
def insertRecord (name : List Nat) (rootId : Nat) : StateR HeaderPage Bool :=
  if 32 < name.length then sok false else
  sbind (findRecordNum name) (fun f =>
  if f.isSome then sok false else
  sbind getRecordCount (fun c =>
  let nameOffset := 4 + c * 36
  sbind (hpWrite name nameOffset 32) (fun _ =>
  sbind (hpWrite (u32le rootId) (nameOffset + 32) 4) (fun _ =>
  sbind (setRecordCount (w32add c 1)) (fun _ => sok true)))))

/-- `copy_within` on the header page's buffer (for `delete_record`). -/
def hpCopyWithin (s e dest : Nat) : StateR HeaderPage Unit :=
  fun st =>
    if s ≤ e ∧ e ≤ PAGE_SIZE ∧ dest + (e - s) ≤ PAGE_SIZE then
      some (Except.ok (), ⟨⟨copyWithin st.page.data s e dest, st.page.pageId,
        st.page.pinCount, st.page.isDirty⟩⟩)
    else none

/-- `HeaderPage::delete_record`. -/
def deleteRecord (name : List Nat) : StateR HeaderPage Bool :=
  sbind getRecordCount (fun c =>
  if c = 0 then sok false else
  sbind (findRecordNum name) (fun f =>
  match f with
  | none => sok false
  | some rn =>
    let off := rn * 36 + 4
    sbind (hpCopyWithin (off + 36) (c * 36 + 4) off) (fun _ =>
    sbind (setRecordCount (w32sub c 1)) (fun _ => sok true))))

/-- `HeaderPage::update_record`. -/
def updateRecord (name : List Nat) (rootId : Nat) : StateR HeaderPage Bool :=
  sbind (findRecordNum name) (fun f =>
  match f with
  | none => sok false
  | some rn =>
    sbind (hpWrite (u32le rootId) (rn * 36 + 4) 4) (fun _ => sok true))

/-- `HeaderPage::get_root_id`. -/
def getRootId (name : List Nat) : StateR HeaderPage (Option Nat) :=
  sbind (findRecordNum name) (fun f =>
  match f with
  | none => sok none
  | some rn =>
    sbind (hpRead 4 (rn * 36 + 4 + 32) 4) (fun r => sok (some (fromLe4 r.2))))

/-- `DiskManager` from disk_manager.rs; the db file is modelled as its byte
content (a total function on byte positions; positions at or past
`fileSize` read as zero) together with its length. -/
structure DiskManager where
  file : Nat → Nat
  fileSize : Nat
  numFlushes : Nat
  numWrites : Nat

/-- `DiskManager::have_page`: true iff `id*PAGE_SIZE + PAGE_SIZE ≤ file_size`. -/
def DiskManager.havePage (dm : DiskManager) (id : Nat) : Bool :=
  decide (id * PAGE_SIZE + PAGE_SIZE ≤ dm.fileSize)

/-- `DiskManager::read_page(id, buf)` with `buf` of length `PAGE_SIZE`:
errors when the page is past end-of-file, otherwise returns the page's
bytes, as a function of the offset within the page (the `read_exact` that
fills `buf` cannot fail once `have_page` holds). -/
def DiskManager.readPage (dm : DiskManager) (id : Nat) :
    Option (Except Unit (Nat → Nat)) :=
  if dm.havePage id then
    some (Except.ok (fun i => dm.file (id * PAGE_SIZE + i)))
  else some (Except.error ())

/-- `DiskManager::write_page(id, bytes)`: requires exactly `PAGE_SIZE`
bytes; seeks to `id*PAGE_SIZE` (zero-padding any gap, as file systems do for
sparse writes) and overwrites the page. -/
def DiskManager.writePage (dm : DiskManager) (id : Nat) (bs : List Nat) :
    Option (Except Unit DiskManager) :=
  if bs.length ≠ PAGE_SIZE then some (Except.error ()) else
  some (Except.ok ⟨
    (fun i =>
      if id * PAGE_SIZE ≤ i ∧ i < id * PAGE_SIZE + PAGE_SIZE then
        bs.getD (i - id * PAGE_SIZE) 0
      else if i < dm.fileSize then dm.file i else 0),
    max dm.fileSize (id * PAGE_SIZE + PAGE_SIZE),
    dm.numFlushes, dm.numWrites + 1⟩)

/-- `ExpelLevel` from clock_replacer.rs. -/
inductive ExpelLevel where
  | HIGH
  | NORMAL
  | MEDIUM
  | LOW
deriving DecidableEq

/-- `ExpelLevel::from(&ClockStatus)`. -/
def ExpelLevel.from (st : ClockStatus) : ExpelLevel :=
  if !st.used && !st.edited then .HIGH
  else if st.used && !st.edited then .NORMAL
  else if !st.used && st.edited then .MEDIUM
  else .LOW

/-- `ClockReplacer` from clock_replacer.rs. -/
structure ClockReplacer where
  clockHand : Nat
  pages : List TablePage
  capacity : Nat

/-- `ClockReplacer::new`. -/
def ClockReplacer.new (capacity : Nat) : Option (Except Unit ClockReplacer) :=
  if capacity = 0 then some (Except.error ()) else some (Except.ok ⟨0, [], capacity⟩)

/-- `ClockReplacer::poll`: first resident non-removed page with this id. -/
def ClockReplacer.poll (cr : ClockReplacer) (id : Nat) : Option TablePage :=
  cr.pages.find? (fun p => p.page.pageId == id && !p.status.removed)

/-- `ClockReplacer::clockwise`: clear every `used` flag. -/
def ClockReplacer.clockwise (cr : ClockReplacer) : ClockReplacer :=
  ⟨cr.clockHand,
   cr.pages.map (fun p => ⟨p.page, false, p.status.edited, p.status.deleted,
     p.status.removed⟩),
   cr.capacity⟩

/-- First index whose page sits at the given expel level (the source groups
indices by level, in order, and takes the head of a level's list). -/
def firstAtLevel (pages : List TablePage) (lvl : ExpelLevel) : Option Nat :=
  pages.findIdx? (fun p => ExpelLevel.from p.status == lvl)

/-- One grouping round of `ClockReplacer::check_hand`'s loop. -/
def chRound (cr : ClockReplacer) : Option (Nat × ClockReplacer) :=
  match firstAtLevel cr.pages .HIGH with
  | some i => some (i, ⟨i, cr.pages, cr.capacity⟩)
  | none =>
    match firstAtLevel cr.pages .NORMAL with
    | some i => some (i, ⟨i, cr.pages, cr.capacity⟩)
    | none =>
      match firstAtLevel cr.pages .MEDIUM with
      | some i => some (i, ⟨i, cr.pages, cr.capacity⟩)
      | none => none

/-- The bounded (four-round) loop of `ClockReplacer::check_hand`. -/
def chLoop (cr : ClockReplacer) (fuel : Nat) :
    Option (Except Unit (Option Nat × ClockReplacer)) :=
  match fuel with
  | 0 => some (Except.error ())
  | fuel + 1 =>
    match chRound cr with
    | some (i, cr1) => some (Except.ok (some i, cr1))
    | none => chLoop cr.clockwise fuel

/-- `ClockReplacer::check_hand`. -/
def ClockReplacer.checkHand (cr : ClockReplacer) :
    Option (Except Unit (Option Nat × ClockReplacer)) :=
  if cr.pages.length < cr.capacity then some (Except.ok (none, cr))
  else chLoop cr 4

/-- `ClockReplacer::push`: either append (cache not full) or replace the
victim slot, returning the evicted page.  `Vec::remove` of an out-of-range
index panics (`none`). -/
def ClockReplacer.push (cr : ClockReplacer) (tp : TablePage) :
    Option (Except Unit (Option TablePage × ClockReplacer)) :=
  match cr.checkHand with
  | none => none
  | some (Except.error e) => some (Except.error e)
  | some (Except.ok (none, cr1)) =>
    some (Except.ok (none, ⟨cr1.clockHand, cr1.pages ++ [tp], cr1.capacity⟩))
  | some (Except.ok (some i, cr1)) =>
    match cr1.pages[i]? with
    | none => none
    | some victim =>
      some (Except.ok (some victim, ⟨cr1.clockHand, cr1.pages.set i tp, cr1.capacity⟩))

/-- `BufferPoolManager` from buffer_pool.rs. -/
structure BufferPool where
  headerPage : HeaderPage
  diskManager : DiskManager
  clockReplacer : ClockReplacer

/-- `BufferPoolManager::open(dir, cache_capacity)` as a function of the
initial db file contents: builds the replacer, reads page 0 (failing, like
the source, when the file does not yet contain a full page 0), and wraps it
as the header page. -/
def BufferPool.open (file : Nat → Nat) (fileSize capacity : Nat) :
    Option (Except Unit BufferPool) :=
  match ClockReplacer.new capacity with
  | none => none
  | some (Except.error e) => some (Except.error e)
  | some (Except.ok cr) =>
    let dm : DiskManager := ⟨file, fileSize, 0, 0⟩
    match dm.readPage 0 with
    | none => none
    | some (Except.error e) => some (Except.error e)
    | some (Except.ok bs) =>
      match HeaderPage.new bs with
      | none => none
      | some (Except.error e) => some (Except.error e)
      | some (Except.ok hp) => some (Except.ok ⟨hp, dm, cr⟩)

/-- `BufferPoolManager::read_disk_page`. -/
def readDiskPage (id : Nat) : StateR BufferPool (Nat → Nat) :=
  fun bp =>
    match bp.diskManager.readPage id with
    | none => none
    | some (Except.error e) => some (Except.error e, bp)
    | some (Except.ok bs) => some (Except.ok bs, bp)

/-- `BufferPoolManager::push_cache`. -/
def pushCache (tp : TablePage) : StateR BufferPool (Option TablePage) :=
  fun bp =>
    let pid := tp.page.pageId
    match bp.clockReplacer.push tp with
    | none => none
    | some (Except.error e) => some (Except.error e, bp)
    | some (Except.ok (evicted, cr1)) =>
      let bp1 : BufferPool := ⟨bp.headerPage, bp.diskManager, cr1⟩
      let step :=
        match evicted with
        | none => some (Except.ok (), bp1)
        | some rp =>
          let rp1 : TablePage :=
            ⟨rp.page, rp.status.used, rp.status.edited, rp.status.deleted, true⟩
          if rp1.status.edited then
            match bp1.diskManager.writePage rp1.page.pageId
                (readBytes rp1.page.data 0 PAGE_SIZE) with
            | none => none
            | some (Except.error e) => some (Except.error e, bp1)
            | some (Except.ok dm1) =>
              some (Except.ok (), ⟨bp1.headerPage, dm1, bp1.clockReplacer⟩)
          else some (Except.ok (), bp1)
      match step with
      | none => none
      | some (Except.error e, bp2) => some (Except.error e, bp2)
      | some (Except.ok _, bp2) =>
        match bp2.clockReplacer.poll pid with
        | some pg => some (Except.ok (some pg), bp2)
        | none => some (Except.error (), bp2)

/-- `BufferPoolManager::fetch_page`. -/
def fetchPage (id : Nat) : StateR BufferPool (Option TablePage) :=
  fun bp =>
    match bp.clockReplacer.poll id with
    | some pg => some (Except.ok (some pg), bp)
    | none =>
      match readDiskPage id bp with
      | none => none
      | some (Except.error e, bp1) => some (Except.error e, bp1)
      | some (Except.ok data, bp1) =>
        let prev : Option Nat := if 1 < id then some (id - 1) else none
        match TablePage.new id prev data with
        | none => none
        | some (Except.error e) => some (Except.error e, bp1)
        | some (Except.ok tp) => pushCache tp bp1

/-- `BufferPoolManager::create_page`. -/
def createPage (id : Nat) : StateR BufferPool (Option TablePage) :=
  fun bp =>
    if bp.diskManager.havePage id then some (Except.ok none, bp) else
    let prev : Option Nat := if 1 < id then some (id - 1) else none
    match readDiskPage id bp with
    | none => none
    | some (Except.error e, bp1) => some (Except.error e, bp1)
    | some (Except.ok data, bp1) =>
      match TablePage.new id prev data with
      | none => none
      | some (Except.error e) => some (Except.error e, bp1)
      | some (Except.ok tp) => pushCache tp bp1

/-- The free-space pointer stored in a table page (LE u32 at offset 17). -/
def fspv (tp : TablePage) : Nat := readU32 tp.page.data 17

/-- The tuple count stored in a table page (LE u32 at offset 21). -/
def countv (tp : TablePage) : Nat := readU32 tp.page.data 21

/-- The tuple offset stored in slot `i`. -/
def offv (tp : TablePage) (i : Nat) : Nat := readU32 tp.page.data (25 + 8 * i)

/-- The (raw) tuple size stored in slot `i`. -/
def sizev (tp : TablePage) (i : Nat) : Nat := readU32 tp.page.data (29 + 8 * i)

/-- The value `get_free_space_remaining` computes, as a function of the
stored header fields (wrapping `u32` arithmetic, as in the source). -/
def fremv (tp : TablePage) : Nat :=
  w32sub (w32sub (fspv tp) SIZE_TABLE_PAGE_HEADER) (SIZE_TUPLE * countv tp % M32)

/-- The header invariant claimed by the spec:
`SIZE_HEADER + SLOT_SIZE * tuple_count ≤ free_space_ptr ≤ PAGE_SIZE`. -/
abbrev headerInv (tp : TablePage) : Prop :=
  SIZE_TABLE_PAGE_HEADER + SIZE_TUPLE * countv tp ≤ fspv tp ∧ fspv tp ≤ PAGE_SIZE

/-- Well-formedness of the slot directory (the spec's slot invariants): every
non-free slot's tuple lies between the free-space pointer and the end of the
page; its size field keeps the real length in the low 31 bits. -/
abbrev slotsWF (tp : TablePage) : Prop :=
  ∀ i, i < countv tp → sizev tp i = 0 ∨
    (fspv tp ≤ offv tp i ∧ offv tp i + sizev tp i % 2147483648 ≤ PAGE_SIZE)

/-- Full page well-formedness: header invariant plus slot directory. -/
abbrev pageWF (tp : TablePage) : Prop := headerInv tp ∧ slotsWF tp

/-- Extract the `Ok` payload of a state-action result. -/
def okVal {σ α : Type} : Option (Except Unit α × σ) → Option α
  | some (Except.ok a, _) => some a
  | _ => none

/-- Extract the post-state of a successful state-action result. -/
def okPost {σ α : Type} : Option (Except Unit α × σ) → Option σ
  | some (Except.ok _, q) => some q
  | _ => none

/-- The post-state of a state-action on a table page (with a fallback for a
panicking run; the fixtures below never take the fallback). -/
def stepTP {α : Type} (r : Option (Except Unit α × TablePage))
    (dflt : TablePage) : TablePage :=
  match r with
  | some (_, q) => q
  | none => dflt

/-- Placeholder table page (never actually used by the fixtures). -/
def dummyTP : TablePage :=
  ⟨⟨fun _ => 0, 1, 0, false⟩, ⟨false, false, false, false⟩⟩

/-- A fresh table page: `TablePage::new(1, None, [0; PAGE_SIZE])`. -/
def freshTP : TablePage :=
  match TablePage.new 1 none (fun _ => 0) with
  | some (Except.ok q) => q
  | _ => dummyTP

/-- `freshTP` after `insert_tuple([0xAA])`. -/
def p1after : TablePage := stepTP (insertTuple [170] freshTP) dummyTP

/-- `p1after` after `mark_delete((1,0))`: slot 0 is tombstoned, its size
field holding `1 | (1 << 31)`. -/
def c4page : TablePage := stepTP (markDelete ⟨1, 0⟩ p1after) dummyTP

/-- Byte buffer of a table page with one free slot: `tuple_count = 1`,
slot 0 has offset 0 and size 0, `free_space_ptr = 36`, so
`free_space_remaining = 36 - 25 - 8 = 3`. -/
def pFreeData : Nat → Nat := fun i => if i = 21 then 1 else if i = 17 then 36 else 0

/-- A table page with a reusable free slot and 3 bytes of remaining free
space. -/
def pFree : TablePage := ⟨⟨pFreeData, 1, 0, false⟩, ⟨true, false, false, false⟩⟩

/-- Byte buffer of an empty table page with `free_space_ptr = 34`, i.e.
`free_space_remaining = 9`. -/
def pBdata : Nat → Nat := fun i => if i = 17 then 34 else 0

/-- An empty table page whose remaining free space is exactly `1 + SLOT_SIZE`. -/
def pB : TablePage := ⟨⟨pBdata, 1, 0, false⟩, ⟨true, false, false, false⟩⟩

/-- Byte buffer of a table page with one live 2-byte tuple at offset 4093:
`tuple_count = 1`, `free_space_ptr = 4093`, slot 0 = (4093, 2). -/
def c10data : Nat → Nat := fun i =>
  if i = 21 then 1 else if i = 17 then 253 else if i = 18 then 15 else
  if i = 25 then 253 else if i = 26 then 15 else if i = 29 then 2 else 0

/-- A well-formed table page (id 1) with a single live tuple in slot 0. -/
def c10page : TablePage := ⟨⟨c10data, 1, 0, false⟩, ⟨true, false, false, false⟩⟩

/-- An all-zero raw page. -/
def zeroPage : Page := ⟨fun _ => 0, 1, 0, false⟩

/-- Placeholder header page. -/
def dummyHP : HeaderPage := ⟨⟨fun _ => 0, 0, 0, false⟩⟩

/-- The post-state of a state-action on the header page. -/
def stepHP {α : Type} (r : Option (Except Unit α × HeaderPage))
    (dflt : HeaderPage) : HeaderPage :=
  match r with
  | some (_, q) => q
  | none => dflt

/-- A fresh header page over zero bytes. -/
def header0 : HeaderPage :=
  match HeaderPage.new (fun _ => 0) with
  | some (Except.ok q) => q
  | _ => dummyHP

/-- UTF-8 bytes of the name "ab". -/
def abName : List Nat := [97, 98]

/-- UTF-8 bytes of the name "cd". -/
def cdName : List Nat := [99, 100]

/-- UTF-8 bytes of the name "e". -/
def eName : List Nat := [101]

/-- `header0` after `insert_record("ab", 1)`. -/
def header1 : HeaderPage := stepHP (insertRecord abName 1 header0) dummyHP

/-- `header1` after `insert_record("cd", 2)`. -/
def header2 : HeaderPage := stepHP (insertRecord cdName 2 header1) dummyHP

/-- `header2` after `delete_record("ab")` (the tail entry is shifted down,
leaving a stale copy of the "cd" entry bytes behind the live region). -/
def header3 : HeaderPage := stepHP (deleteRecord abName header2) dummyHP

/-- `header3` after `insert_record("e", 3)`: the write of the 1-byte name
overwrites only one byte of the stale "cd" entry. -/
def header4 : HeaderPage := stepHP (insertRecord eName 3 header3) dummyHP

/-- A buffer pool over a freshly created (empty) database file. -/
def freshPool : BufferPool := ⟨dummyHP, ⟨fun _ => 0, 0, 0, 0⟩, ⟨0, [], 10⟩⟩

/-- A buffer pool over a database file holding exactly page 0 (all zeros). -/
def pool4095 : BufferPool := ⟨dummyHP, ⟨fun _ => 0, 4095, 0, 0⟩, ⟨0, [], 10⟩⟩

/-- Content of the database file for the C3 scenario: page 0 is all zeros;
page 1 (file offsets 4095..8189) stores `tuple_count = 5` (page offset 21),
`free_space_ptr = 1000` (page offset 17, LE bytes 232, 3) and a set page
tombstone flag (page offset 4). -/
def c3file : Nat → Nat := fun i =>
  if i = 4095 + 21 then 5 else if i = 4095 + 17 then 232 else
  if i = 4095 + 18 then 3 else if i = 4095 + 4 then 1 else 0

/-- The on-disk bytes of page 1 in the C3 scenario, as a function of the
offset within the page. -/
def c3pageBytes : Nat → Nat := fun i => c3file (4095 + i)

/-- A buffer pool over the two-page C3 file, with an empty cache. -/
def pool3 : BufferPool :=
  ⟨dummyHP, ⟨c3file, 8190, 0, 0⟩, ⟨0, [], 1⟩⟩

/-- The table page returned by `fetch_page(1)` on `pool3` (a cache miss that
reads the page from disk). -/
def fetched3 : Option TablePage :=
  match fetchPage 1 pool3 with
  | some (Except.ok (some q), _) => some q
  | _ => none

theorem PAGE_SIZE_eq : PAGE_SIZE = 4095 := rfl

theorem M32_eq : M32 = 4294967296 := rfl

theorem M64_eq : M64 = 18446744073709551616 := rfl

theorem SIZE_HDR_eq : SIZE_TABLE_PAGE_HEADER = 25 := rfl

theorem SIZE_TUPLE_eq : SIZE_TUPLE = 8 := rfl

theorem DELETE_MASK_eq : DELETE_MASK = 2147483648 := rfl

theorem u32le_length (v : Nat) : (u32le v).length = 4 := rfl

/-- Every decoded `u32` is below `2^32`. -/
theorem readU32_lt (d : Nat → Nat) (off : Nat) : readU32 d off < M32 := by
  have h0 : d off % 256 < 256 := Nat.mod_lt _ (by omega)
  have h1 : d (off + 1) % 256 < 256 := Nat.mod_lt _ (by omega)
  have h2 : d (off + 2) % 256 < 256 := Nat.mod_lt _ (by omega)
  have h3 : d (off + 3) % 256 < 256 := Nat.mod_lt _ (by omega)
  simp only [readU32, byteAt, M32_eq]
  omega

theorem byteAt_wbytes_out (d : Nat → Nat) (off : Nat) (bs : List Nat) (i : Nat)
    (h : i < off ∨ off + bs.length ≤ i) :
    byteAt (wbytes d off bs) i = byteAt d i := by
  simp only [byteAt, wbytes]
  rw [if_neg (by omega)]

theorem byteAt_wbytes_in (d : Nat → Nat) (off : Nat) (bs : List Nat) (i : Nat)
    (h1 : off ≤ i) (h2 : i < off + bs.length) :
    byteAt (wbytes d off bs) i = bs.getD (i - off) 0 % 256 := by
  simp only [byteAt, wbytes]
  rw [if_pos ⟨h1, h2⟩]

/-- A 4-byte field strictly below a written region is unchanged. -/
theorem readU32_wbytes_left (d : Nat → Nat) (off : Nat) (bs : List Nat)
    (o2 : Nat) (h : o2 + 4 ≤ off) :
    readU32 (wbytes d off bs) o2 = readU32 d o2 := by
  simp only [readU32]
  rw [byteAt_wbytes_out d off bs o2 (by omega),
      byteAt_wbytes_out d off bs (o2 + 1) (by omega),
      byteAt_wbytes_out d off bs (o2 + 2) (by omega),
      byteAt_wbytes_out d off bs (o2 + 3) (by omega)]

/-- A 4-byte field entirely above a written region is unchanged. -/
theorem readU32_wbytes_right (d : Nat → Nat) (off : Nat) (bs : List Nat)
    (o2 : Nat) (h : off + bs.length ≤ o2) :
    readU32 (wbytes d off bs) o2 = readU32 d o2 := by
  simp only [readU32]
  rw [byteAt_wbytes_out d off bs o2 (by omega),
      byteAt_wbytes_out d off bs (o2 + 1) (by omega),
      byteAt_wbytes_out d off bs (o2 + 2) (by omega),
      byteAt_wbytes_out d off bs (o2 + 3) (by omega)]

/-- Reading back a just-written little-endian `u32`. -/
theorem readU32_wbytes_u32le (d : Nat → Nat) (off v : Nat) :
    readU32 (wbytes d off (u32le v)) off = v % M32 := by
  have hl : (u32le v).length = 4 := rfl
  simp only [readU32]
  rw [byteAt_wbytes_in d off (u32le v) off (by omega) (by omega),
      byteAt_wbytes_in d off (u32le v) (off + 1) (by omega) (by omega),
      byteAt_wbytes_in d off (u32le v) (off + 2) (by omega) (by omega),
      byteAt_wbytes_in d off (u32le v) (off + 3) (by omega) (by omega)]
  simp only [u32le, Nat.sub_self, Nat.add_sub_cancel_left, List.getD_cons_zero,
    List.getD_cons_succ, M32_eq]
  omega

theorem byteAt_copyWithin_out (d : Nat → Nat) (s e dest i : Nat)
    (h : i < dest ∨ dest + (e - s) ≤ i) :
    byteAt (copyWithin d s e dest) i = byteAt d i := by
  simp only [byteAt, copyWithin]
  rw [if_neg (by omega)]

/-- A 4-byte field strictly below a `copy_within` destination is unchanged. -/
theorem readU32_copyWithin_left (d : Nat → Nat) (s e dest o2 : Nat)
    (h : o2 + 4 ≤ dest) :
    readU32 (copyWithin d s e dest) o2 = readU32 d o2 := by
  simp only [readU32]
  rw [byteAt_copyWithin_out d s e dest o2 (by omega),
      byteAt_copyWithin_out d s e dest (o2 + 1) (by omega),
      byteAt_copyWithin_out d s e dest (o2 + 2) (by omega),
      byteAt_copyWithin_out d s e dest (o2 + 3) (by omega)]

theorem sbind_ok_apply {σ α β : Type} (x : StateR σ α) (f : α → StateR σ β)
    (s s1 : σ) (a : α) (h : x s = some (Except.ok a, s1)) :
    sbind x f s = f a s1 := by
  simp only [sbind, h]

theorem sbind_ok_elim {σ α β : Type} {x : StateR σ α} {f : α → StateR σ β}
    {s s2 : σ} {b : β} (h : sbind x f s = some (Except.ok b, s2)) :
    ∃ a s1, x s = some (Except.ok a, s1) ∧ f a s1 = some (Except.ok b, s2) := by
  unfold sbind at h
  match hx : x s with
  | none => rw [hx] at h; exact absurd h (by simp)
  | some (Except.error e, s1) => rw [hx] at h; exact absurd h (by simp)
  | some (Except.ok a, s1) => rw [hx] at h; exact ⟨a, s1, rfl, h⟩

@[simp] theorem fspv_setData (tp : TablePage) (d : Nat → Nat) :
    fspv (setData tp d) = readU32 d 17 := rfl

@[simp] theorem countv_setData (tp : TablePage) (d : Nat → Nat) :
    countv (setData tp d) = readU32 d 21 := rfl

@[simp] theorem offv_setData (tp : TablePage) (d : Nat → Nat) (i : Nat) :
    offv (setData tp d) i = readU32 d (25 + 8 * i) := rfl

@[simp] theorem sizev_setData (tp : TablePage) (d : Nat → Nat) (i : Nat) :
    sizev (setData tp d) i = readU32 d (29 + 8 * i) := rfl

@[simp] theorem pageId_setData (tp : TablePage) (d : Nat → Nat) :
    (setData tp d).page.pageId = tp.page.pageId := rfl

theorem fromLe4_readBytes4 (d : Nat → Nat) (off : Nat) :
    fromLe4 (readBytes d off 4) = readU32 d off := by
  have h4 : List.range 4 = [0, 1, 2, 3] := rfl
  simp only [fromLe4, readBytes, h4, List.map_cons, List.map_nil,
    List.getD_cons_zero, List.getD_cons_succ, readU32, Nat.add_zero]

theorem read_data_exact4 (p : Page) (off : Nat) (h : off + 4 ≤ PAGE_SIZE) :
    Page.read_data p 4 off 4 = some (Except.ok (4, readBytes p.data off 4)) := by
  have hps : PAGE_SIZE = 4095 := rfl
  unfold Page.read_data
  have he : rwEnd off 4 4 - off = 4 := by simp only [rwEnd, hps] at *; omega
  rw [if_neg (by omega), if_pos he, he]

theorem read_data4_ok_elim {p : Page} {off : Nat} {r : Nat × List Nat}
    (h : Page.read_data p 4 off 4 = some (Except.ok r)) :
    off + 4 ≤ PAGE_SIZE ∧ r = (4, readBytes p.data off 4) := by
  have hps : PAGE_SIZE = 4095 := rfl
  unfold Page.read_data at h
  by_cases h1 : PAGE_SIZE < off
  · rw [if_pos h1] at h; exact absurd h (by simp)
  · rw [if_neg h1] at h
    by_cases h2 : rwEnd off 4 4 - off = 4
    · have hoff : off + 4 ≤ PAGE_SIZE := by simp only [rwEnd, hps] at *; omega
      rw [if_pos h2, h2] at h
      exact ⟨hoff, by injection h with h; exact (Except.ok.inj h).symm⟩
    · rw [if_neg h2] at h; exact absurd h (by simp)

theorem readF4_eval (off : Nat) (tp : TablePage) (h : off + 4 ≤ PAGE_SIZE) :
    readF4 off tp = some (Except.ok (readU32 tp.page.data off), tp) := by
  unfold readF4
  rw [sbind_ok_apply _ _ tp tp (4, readBytes tp.page.data off 4)
    (by unfold tpRead; rw [read_data_exact4 tp.page off h])]
  unfold sok
  rw [fromLe4_readBytes4]

theorem tpRead_ok_elim {dstLen off len : Nat} {tp tp1 : TablePage}
    {a : Nat × List Nat} (h : tpRead dstLen off len tp = some (Except.ok a, tp1)) :
    tp1 = tp ∧ Page.read_data tp.page dstLen off len = some (Except.ok a) := by
  unfold tpRead at h
  match hr : Page.read_data tp.page dstLen off len with
  | none => rw [hr] at h; exact absurd h (by simp)
  | some (Except.error e) => rw [hr] at h; exact absurd h (by simp)
  | some (Except.ok r) =>
    rw [hr] at h
    simp only [Option.some.injEq, Prod.mk.injEq, Except.ok.injEq] at h
    exact ⟨h.2.symm, by rw [h.1]⟩

theorem readF4_ok_elim {off : Nat} {tp tp1 : TablePage} {v : Nat}
    (h : readF4 off tp = some (Except.ok v, tp1)) :
    tp1 = tp ∧ v = readU32 tp.page.data off ∧ off + 4 ≤ PAGE_SIZE := by
  unfold readF4 at h
  obtain ⟨a, s1, hx, hf⟩ := sbind_ok_elim h
  obtain ⟨hs1, hrd⟩ := tpRead_ok_elim hx
  obtain ⟨hoff, hrv⟩ := read_data4_ok_elim hrd
  unfold sok at hf
  simp only [Option.some.injEq, Prod.mk.injEq, Except.ok.injEq] at hf
  subst hs1 hrv
  refine ⟨hf.2.symm, ?_, hoff⟩
  rw [← hf.1, fromLe4_readBytes4]

theorem List.take_of_len (bs : List Nat) : bs.take bs.length = bs :=
  List.take_length bs

theorem write_data_full (p : Page) (src : List Nat) (off : Nat)
    (h : off + src.length ≤ PAGE_SIZE) :
    Page.write_data p src off src.length =
      some (Except.ok (src.length,
        ⟨wbytes p.data off src, p.pageId, p.pinCount, p.isDirty⟩)) := by
  have hps : PAGE_SIZE = 4095 := rfl
  unfold Page.write_data
  have he : rwEnd off src.length src.length - off = src.length := by
    simp only [rwEnd, hps] at *; omega
  rw [if_neg (by omega), he, List.take_length]

theorem write_data_ok_elim {p : Page} {src : List Nat} {off len n : Nat}
    {pg : Page} (h : Page.write_data p src off len = some (Except.ok (n, pg))) :
    off ≤ PAGE_SIZE ∧
      pg = ⟨wbytes p.data off (src.take (rwEnd off len src.length - off)),
        p.pageId, p.pinCount, p.isDirty⟩ := by
  unfold Page.write_data at h
  by_cases h1 : PAGE_SIZE < off
  · rw [if_pos h1] at h; exact absurd h (by simp)
  · rw [if_neg h1] at h
    refine ⟨by omega, ?_⟩
    simp only [Option.some.injEq, Except.ok.injEq, Prod.mk.injEq] at h
    exact h.2.symm

theorem tpWrite_ok_elim {src : List Nat} {off len : Nat} {tp tp1 : TablePage}
    {n : Nat} (h : tpWrite src off len tp = some (Except.ok n, tp1)) :
    off ≤ PAGE_SIZE ∧
      tp1 = setData tp (wbytes tp.page.data off
        (src.take (rwEnd off len src.length - off))) := by
  unfold tpWrite at h
  match hw : Page.write_data tp.page src off len with
  | none => rw [hw] at h; exact absurd h (by simp)
  | some (Except.error e) => rw [hw] at h; exact absurd h (by simp)
  | some (Except.ok (m, pg)) =>
    rw [hw] at h
    obtain ⟨hoff, hpg⟩ := write_data_ok_elim hw
    simp only [Option.some.injEq, Prod.mk.injEq, Except.ok.injEq] at h
    refine ⟨hoff, ?_⟩
    rw [← h.2, hpg]
    rfl

theorem tpWrite_full (src : List Nat) (off : Nat) (tp : TablePage)
    (h : off + src.length ≤ PAGE_SIZE) :
    tpWrite src off src.length tp =
      some (Except.ok src.length, setData tp (wbytes tp.page.data off src)) := by
  unfold tpWrite
  rw [write_data_full tp.page src off h]
  rfl

theorem writeF4_eval (off v : Nat) (tp : TablePage) (h : off + 4 ≤ PAGE_SIZE) :
    writeF4 off v tp =
      some (Except.ok 4, setData tp (wbytes tp.page.data off (u32le v))) := by
  unfold writeF4
  exact tpWrite_full (u32le v) off tp h

theorem getFsp_eval (tp : TablePage) :
    getFreeSpacePointer tp = some (Except.ok (fspv tp), tp) :=
  readF4_eval 17 tp (by rw [PAGE_SIZE_eq]; omega)

theorem getCount_eval (tp : TablePage) :
    getTupleCount tp = some (Except.ok (countv tp), tp) :=
  readF4_eval 21 tp (by rw [PAGE_SIZE_eq]; omega)

theorem getRem_eval (tp : TablePage) :
    getFreeSpaceRemaining tp = some (Except.ok (fremv tp), tp) := by
  unfold getFreeSpaceRemaining
  rw [sbind_ok_apply _ _ tp tp (fspv tp) (getFsp_eval tp),
      sbind_ok_apply _ _ tp tp (countv tp) (getCount_eval tp)]
  rfl

theorem getSlotSize_ok_elim {i : Nat} {tp tp1 : TablePage} {s : Nat}
    (h : getTupleSize i tp = some (Except.ok s, tp1)) :
    tp1 = tp ∧ s = sizev tp i ∧ 8 * i + 33 ≤ PAGE_SIZE := by
  obtain ⟨h1, h2, h3⟩ := readF4_ok_elim h
  refine ⟨h1, ?_, ?_⟩
  · rw [h2]; rfl
  · rw [PAGE_SIZE_eq] at *
    simp only [SIZE_TUPLE_eq] at h3
    omega

theorem getSlotSize_eval (i : Nat) (tp : TablePage) (h : 8 * i + 33 ≤ PAGE_SIZE) :
    getTupleSize i tp = some (Except.ok (sizev tp i), tp) := by
  unfold getTupleSize
  exact readF4_eval _ tp (by simp only [SIZE_TUPLE_eq, PAGE_SIZE_eq] at *; omega)

theorem getSlotOff_ok_elim {i : Nat} {tp tp1 : TablePage} {v : Nat}
    (h : getTupleOffsetAtSlot i tp = some (Except.ok v, tp1)) :
    tp1 = tp ∧ v = offv tp i ∧ 8 * i + 29 ≤ PAGE_SIZE := by
  obtain ⟨h1, h2, h3⟩ := readF4_ok_elim h
  refine ⟨h1, ?_, ?_⟩
  · rw [h2]; rfl
  · rw [PAGE_SIZE_eq] at *
    simp only [SIZE_TUPLE_eq] at h3
    omega

theorem getSlotOff_eval (i : Nat) (tp : TablePage) (h : 8 * i + 29 ≤ PAGE_SIZE) :
    getTupleOffsetAtSlot i tp = some (Except.ok (offv tp i), tp) := by
  unfold getTupleOffsetAtSlot
  exact readF4_eval _ tp (by simp only [SIZE_TUPLE_eq, PAGE_SIZE_eq] at *; omega)

theorem setFsp_eval (v : Nat) (tp : TablePage) :
    setFreeSpacePointer v tp =
      some (Except.ok (), setData tp (wbytes tp.page.data 17 (u32le v))) := by
  unfold setFreeSpacePointer
  rw [sbind_ok_apply _ _ tp _ 4 (writeF4_eval 17 v tp (by rw [PAGE_SIZE_eq]; omega))]
  rfl

theorem setCount_eval (v : Nat) (tp : TablePage) :
    setTupleCount v tp =
      some (Except.ok (), setData tp (wbytes tp.page.data 21 (u32le v))) := by
  unfold setTupleCount
  rw [sbind_ok_apply _ _ tp _ 4 (writeF4_eval 21 v tp (by rw [PAGE_SIZE_eq]; omega))]
  rfl

theorem fspv_after_setFsp (v : Nat) (tp : TablePage) :
    fspv (setData tp (wbytes tp.page.data 17 (u32le v))) = v % M32 := by
  simp only [fspv_setData]
  exact readU32_wbytes_u32le tp.page.data 17 v

theorem countv_after_setFsp (v : Nat) (tp : TablePage) :
    countv (setData tp (wbytes tp.page.data 17 (u32le v))) = countv tp := by
  simp only [countv_setData]
  exact readU32_wbytes_right tp.page.data 17 (u32le v) 21 (by rw [u32le_length])

theorem countv_after_setCount (v : Nat) (tp : TablePage) :
    countv (setData tp (wbytes tp.page.data 21 (u32le v))) = v % M32 := by
  simp only [countv_setData]
  exact readU32_wbytes_u32le tp.page.data 21 v

theorem fspv_after_setCount (v : Nat) (tp : TablePage) :
    fspv (setData tp (wbytes tp.page.data 21 (u32le v))) = fspv tp := by
  simp only [fspv_setData]
  exact readU32_wbytes_left tp.page.data 21 (u32le v) 17 (by omega)

/-- A write whose offset is at least 21 leaves the free-space pointer
field (bytes 17..20) unchanged. -/
theorem tpWrite_pres_fspv {src : List Nat} {off len : Nat} {tp tp1 : TablePage}
    {n : Nat} (h : tpWrite src off len tp = some (Except.ok n, tp1))
    (hoff : 21 ≤ off) : fspv tp1 = fspv tp := by
  obtain ⟨_, htp⟩ := tpWrite_ok_elim h
  subst htp
  simp only [fspv_setData]
  exact readU32_wbytes_left tp.page.data off _ 17 (by omega)

/-- A write whose offset is at least 25 leaves the tuple-count field
(bytes 21..24) unchanged. -/
theorem tpWrite_pres_countv {src : List Nat} {off len : Nat} {tp tp1 : TablePage}
    {n : Nat} (h : tpWrite src off len tp = some (Except.ok n, tp1))
    (hoff : 25 ≤ off) : countv tp1 = countv tp := by
  obtain ⟨_, htp⟩ := tpWrite_ok_elim h
  subst htp
  simp only [countv_setData]
  exact readU32_wbytes_left tp.page.data off _ 21 (by omega)

theorem tpWrite_pres_pageId {src : List Nat} {off len : Nat} {tp tp1 : TablePage}
    {n : Nat} (h : tpWrite src off len tp = some (Except.ok n, tp1)) :
    tp1.page.pageId = tp.page.pageId := by
  obtain ⟨_, htp⟩ := tpWrite_ok_elim h
  subst htp
  rfl

/-- `set_tuple_offset_at_slot` (any slot, even when the trailing write is
clamped) leaves the header fields and the page id unchanged. -/
theorem setSlotOff_pres {i v : Nat} {tp tp1 : TablePage}
    (h : setTupleOffsetAtSlot i v tp = some (Except.ok (), tp1)) :
    fspv tp1 = fspv tp ∧ countv tp1 = countv tp ∧
      tp1.page.pageId = tp.page.pageId := by
  unfold setTupleOffsetAtSlot at h
  obtain ⟨n, s1, hw, hf⟩ := sbind_ok_elim h
  unfold sok at hf
  simp only [Option.some.injEq, Prod.mk.injEq] at hf
  obtain ⟨-, hf⟩ := hf
  subst hf
  have hoff : (21 : Nat) ≤ 25 + SIZE_TUPLE * i := by
    simp only [SIZE_TUPLE_eq]; omega
  have hoff2 : (25 : Nat) ≤ 25 + SIZE_TUPLE * i := by
    simp only [SIZE_TUPLE_eq]; omega
  exact ⟨tpWrite_pres_fspv hw hoff, tpWrite_pres_countv hw hoff2,
    tpWrite_pres_pageId hw⟩

/-- `set_tuple_size` (any slot) leaves the header fields and the page id
unchanged. -/
theorem setSlotSize_pres {i v : Nat} {tp tp1 : TablePage}
    (h : setTupleSize i v tp = some (Except.ok (), tp1)) :
    fspv tp1 = fspv tp ∧ countv tp1 = countv tp ∧
      tp1.page.pageId = tp.page.pageId := by
  unfold setTupleSize at h
  obtain ⟨n, s1, hw, hf⟩ := sbind_ok_elim h
  unfold sok at hf
  simp only [Option.some.injEq, Prod.mk.injEq] at hf
  obtain ⟨-, hf⟩ := hf
  subst hf
  have hoff : (21 : Nat) ≤ 29 + SIZE_TUPLE * i := by
    simp only [SIZE_TUPLE_eq]; omega
  have hoff2 : (25 : Nat) ≤ 29 + SIZE_TUPLE * i := by
    simp only [SIZE_TUPLE_eq]; omega
  exact ⟨tpWrite_pres_fspv hw hoff, tpWrite_pres_countv hw hoff2,
    tpWrite_pres_pageId hw⟩

theorem setSlotSize_eval (i v : Nat) (tp : TablePage) (h : 8 * i + 33 ≤ PAGE_SIZE) :
    setTupleSize i v tp = some (Except.ok (),
      setData tp (wbytes tp.page.data (29 + 8 * i) (u32le v))) := by
  unfold setTupleSize
  have he : (29 + SIZE_TUPLE * i : Nat) = 29 + 8 * i := by
    simp only [SIZE_TUPLE_eq]
  rw [he, sbind_ok_apply _ _ tp _ 4 (writeF4_eval (29 + 8 * i) v tp
    (by rw [PAGE_SIZE_eq] at *; omega))]
  rfl

theorem setSlotOff_eval (i v : Nat) (tp : TablePage) (h : 8 * i + 29 ≤ PAGE_SIZE) :
    setTupleOffsetAtSlot i v tp = some (Except.ok (),
      setData tp (wbytes tp.page.data (25 + 8 * i) (u32le v))) := by
  unfold setTupleOffsetAtSlot
  have he : (25 + SIZE_TUPLE * i : Nat) = 25 + 8 * i := by
    simp only [SIZE_TUPLE_eq]
  rw [he, sbind_ok_apply _ _ tp _ 4 (writeF4_eval (25 + 8 * i) v tp
    (by rw [PAGE_SIZE_eq] at *; omega))]
  rfl

theorem stEdited_eval (tp : TablePage) :
    stEdited tp = some (Except.ok (),
      ⟨tp.page, tp.status.used, true, tp.status.deleted, tp.status.removed⟩) := rfl

theorem stEdited_ok_elim {tp tp1 : TablePage}
    (h : stEdited tp = some (Except.ok (), tp1)) :
    tp1.page = tp.page := by
  unfold stEdited at h
  simp only [Option.some.injEq, Prod.mk.injEq] at h
  rw [← h.2]

theorem fspv_page_eq {tp tp1 : TablePage} (h : tp1.page = tp.page) :
    fspv tp1 = fspv tp := by unfold fspv; rw [h]

theorem countv_page_eq {tp tp1 : TablePage} (h : tp1.page = tp.page) :
    countv tp1 = countv tp := by unfold countv; rw [h]

theorem stCopyWithin_ok_elim {s e dest : Nat} {tp tp1 : TablePage}
    (h : stCopyWithin s e dest tp = some (Except.ok (), tp1)) :
    s ≤ e ∧ e ≤ PAGE_SIZE ∧ dest + (e - s) ≤ PAGE_SIZE ∧
      tp1 = setData tp (copyWithin tp.page.data s e dest) := by
  unfold stCopyWithin at h
  by_cases hc : s ≤ e ∧ e ≤ PAGE_SIZE ∧ dest + (e - s) ≤ PAGE_SIZE
  · rw [if_pos hc] at h
    simp only [Option.some.injEq, Prod.mk.injEq] at h
    exact ⟨hc.1, hc.2.1, hc.2.2, h.2.symm⟩
  · rw [if_neg hc] at h
    exact absurd h (by simp)

theorem stCopyWithin_eval (s e dest : Nat) (tp : TablePage)
    (h : s ≤ e ∧ e ≤ PAGE_SIZE ∧ dest + (e - s) ≤ PAGE_SIZE) :
    stCopyWithin s e dest tp =
      some (Except.ok (), setData tp (copyWithin tp.page.data s e dest)) := by
  unfold stCopyWithin
  rw [if_pos h]

theorem land_two_pow31_eq_zero {s : Nat} (h : s < 2147483648) :
    s &&& 2147483648 = 0 := by
  have h31 : (2147483648 : Nat) = 2 ^ 31 := by norm_num
  rw [h31, Nat.and_two_pow s 31,
    Nat.testBit_eq_false_of_lt (by rw [← h31]; exact h)]
  rfl

theorem land_two_pow31_ne_zero {s : Nat} (h1 : 2147483648 ≤ s)
    (h2 : s < 4294967296) : s &&& 2147483648 ≠ 0 := by
  have h31 : (2147483648 : Nat) = 2 ^ 31 := by norm_num
  have hb : s.testBit 31 = true := by
    rw [Nat.testBit_to_div_mod]
    have hp : (2 : Nat) ^ 31 = 2147483648 := by norm_num
    rw [hp]
    simp only [decide_eq_true_eq]
    omega
  rw [h31, Nat.and_two_pow s 31, hb]
  norm_num

/-- `is_deleted` on a stored (hence `< 2^32`) size: true iff the size is 0
or its high bit is set. -/
theorem isDeletedSize_iff {s : Nat} (h : s < M32) :
    isDeletedSize s = true ↔ s = 0 ∨ 2147483648 ≤ s := by
  unfold isDeletedSize DELETE_MASK
  rw [M32_eq] at h
  constructor
  · intro hd
    rcases Bool.or_eq_true_iff.mp hd with hd | hd
    · by_cases hs : s < 2147483648
      · exact absurd (land_two_pow31_eq_zero hs) (by simpa using hd)
      · right; omega
    · left; simpa using hd
  · intro hd
    rcases hd with hd | hd
    · subst hd; simp
    · exact Bool.or_eq_true_iff.mpr (Or.inl (by
        simpa using land_two_pow31_ne_zero hd h))

theorem isDeletedSize_false {s : Nat} (h : s < M32)
    (hd : isDeletedSize s = false) : s ≠ 0 ∧ s < 2147483648 := by
  by_cases h0 : s = 0
  · subst h0; simp [isDeletedSize] at hd
  · refine ⟨h0, ?_⟩
    by_cases h1 : s < 2147483648
    · exact h1
    · have := (isDeletedSize_iff h).mpr (Or.inr (by omega))
      rw [hd] at this
      exact absurd this (by simp)

theorem lor_two_pow31 {s : Nat} (h : s < 2147483648) :
    s ||| 2147483648 = s + 2147483648 := by
  have h31 : (2147483648 : Nat) = 2 ^ 31 := by norm_num
  apply Nat.eq_of_testBit_eq
  intro i
  rcases Nat.lt_trichotomy i 31 with hi | hi | hi
  · rw [Nat.testBit_lor, h31, Nat.testBit_two_pow_of_ne (by omega),
      Nat.add_comm s, Nat.testBit_two_pow_add_gt hi]
    simp
  · subst hi
    rw [Nat.testBit_lor, h31, Nat.testBit_two_pow_self,
      Nat.add_comm s, Nat.testBit_two_pow_add_eq,
      Nat.testBit_eq_false_of_lt (by rw [← h31]; exact h)]
    simp
  · have h32 : (2 : Nat) ^ 32 ≤ 2 ^ i := Nat.pow_le_pow_right (by omega) (by omega)
    have hgt : s + 2 ^ 31 < 2 ^ i := by norm_num at *; omega
    rw [Nat.testBit_lor, h31, Nat.testBit_two_pow_of_ne (by omega),
      Nat.testBit_eq_false_of_lt hgt,
      Nat.testBit_eq_false_of_lt (show s < 2 ^ i by norm_num at *; omega)]
    simp

/-- Under the header invariant the `u32` free-space computation does not
wrap: `free_space_remaining = fsp - 25 - 8*count` exactly. -/
theorem fremv_exact {tp : TablePage} (h : headerInv tp) :
    fremv tp = fspv tp - 25 - 8 * countv tp := by
  obtain ⟨h1, h2⟩ := h
  rw [PAGE_SIZE_eq] at h2
  simp only [SIZE_HDR_eq, SIZE_TUPLE_eq] at h1
  have hc : countv tp ≤ 508 := by omega
  simp only [fremv, w32sub, SIZE_HDR_eq, SIZE_TUPLE_eq, M32_eq]
  omega

/-- Under the header invariant there are at most 508 slots. -/
theorem countv_le {tp : TablePage} (h : headerInv tp) : countv tp ≤ 508 := by
  obtain ⟨h1, h2⟩ := h
  rw [PAGE_SIZE_eq] at h2
  simp only [SIZE_HDR_eq, SIZE_TUPLE_eq] at h1
  omega

theorem sok_ok_elim {σ α : Type} {a b : α} {s s1 : σ}
    (h : sok a s = some (Except.ok b, s1)) : b = a ∧ s1 = s := by
  unfold sok at h
  simp only [Option.some.injEq, Prod.mk.injEq, Except.ok.injEq] at h
  exact ⟨h.1.symm, h.2.symm⟩

/-- The free-slot scan only reads, so it leaves the state unchanged. -/
theorem freeSlotAux_ok_elim : ∀ (fuel i : Nat) {tp tp1 : TablePage}
    {r : Option Nat}, freeSlotAux i fuel tp = some (Except.ok r, tp1) → tp1 = tp := by
  intro fuel
  induction fuel with
  | zero =>
    intro i tp tp1 r h
    exact (sok_ok_elim h).2
  | succ fuel ih =>
    intro i tp tp1 r h
    unfold freeSlotAux at h
    obtain ⟨s, s1, hx, hf⟩ := sbind_ok_elim h
    obtain ⟨hs1, _, _⟩ := getSlotSize_ok_elim hx
    subst hs1
    by_cases hz : s = 0
    · rw [if_pos hz] at hf
      exact (sok_ok_elim hf).2
    · rw [if_neg hz] at hf
      exact ih (i + 1) hf

/-- When every scanned slot entry lies inside the page, the free-slot scan
completes, and a found index lies within the scanned range. -/
theorem freeSlotAux_total : ∀ (fuel i : Nat) (tp : TablePage),
    i + fuel ≤ 508 →
    ∃ r, freeSlotAux i fuel tp = some (Except.ok r, tp) ∧
      ∀ j, r = some j → j < i + fuel := by
  intro fuel
  induction fuel with
  | zero =>
    intro i tp h
    exact ⟨none, rfl, by intro j hj; exact absurd hj (by simp)⟩
  | succ fuel ih =>
    intro i tp h
    unfold freeSlotAux
    rw [sbind_ok_apply _ _ tp tp (sizev tp i)
      (getSlotSize_eval i tp (by rw [PAGE_SIZE_eq]; omega))]
    by_cases hz : sizev tp i = 0
    · rw [if_pos hz]
      exact ⟨some i, rfl, by
        intro j hj
        injection hj with hj
        omega⟩
    · rw [if_neg hz]
      obtain ⟨r, hr, hran⟩ := ih (i + 1) tp (by omega)
      exact ⟨r, hr, by
        intro j hj
        have := hran j hj
        omega⟩

theorem sizev_page_eq {tp tp1 : TablePage} (h : tp1.page = tp.page) (i : Nat) :
    sizev tp1 i = sizev tp i := by unfold sizev; rw [h]

/-- The slot-fixing loop of `apply_delete` leaves the header fields
unchanged. -/
theorem applyLoop_pres : ∀ (fuel i : Nat) {toff ts : Nat} {tp tp1 : TablePage},
    applyLoop toff ts i fuel tp = some (Except.ok (), tp1) →
    fspv tp1 = fspv tp ∧ countv tp1 = countv tp := by
  intro fuel
  induction fuel with
  | zero =>
    intro i toff ts tp tp1 h
    rw [(sok_ok_elim h).2]
    exact ⟨rfl, rfl⟩
  | succ fuel ih =>
    intro i toff ts tp tp1 h
    unfold applyLoop at h
    obtain ⟨oi, s1, hx, hf⟩ := sbind_ok_elim h
    obtain ⟨hs1, _, _⟩ := getSlotOff_ok_elim hx
    rw [hs1] at hf
    obtain ⟨u, s2, hy, hg⟩ := sbind_ok_elim hf
    have hs2 : fspv s2 = fspv tp ∧ countv s2 = countv tp := by
      by_cases hc : oi < toff
      · rw [if_pos hc] at hy
        match u with
        | () => exact ⟨(setSlotOff_pres hy).1, (setSlotOff_pres hy).2.1⟩
      · rw [if_neg hc] at hy
        rw [(sok_ok_elim hy).2]
        exact ⟨rfl, rfl⟩
    obtain ⟨h1, h2⟩ := ih (i + 1) hg
    exact ⟨h1.trans hs2.1, h2.trans hs2.2⟩

/-- The slot-fixing loop of `update_tuple` leaves the header fields
unchanged. -/
theorem updateLoop_pres : ∀ (fuel i : Nat) {toff ts ns : Nat} {tp tp1 : TablePage},
    updateLoop toff ts ns i fuel tp = some (Except.ok (), tp1) →
    fspv tp1 = fspv tp ∧ countv tp1 = countv tp := by
  intro fuel
  induction fuel with
  | zero =>
    intro i toff ts ns tp tp1 h
    rw [(sok_ok_elim h).2]
    exact ⟨rfl, rfl⟩
  | succ fuel ih =>
    intro i toff ts ns tp tp1 h
    unfold updateLoop at h
    obtain ⟨oi, s1, hx, hf⟩ := sbind_ok_elim h
    obtain ⟨hs1, _, _⟩ := getSlotOff_ok_elim hx
    rw [hs1] at hf
    obtain ⟨u, s2, hy, hg⟩ := sbind_ok_elim hf
    have hs2 : fspv s2 = fspv tp ∧ countv s2 = countv tp := by
      by_cases hc : oi < toff
      · rw [if_pos hc] at hy
        match u with
        | () => exact ⟨(setSlotOff_pres hy).1, (setSlotOff_pres hy).2.1⟩
      · rw [if_neg hc] at hy
        rw [(sok_ok_elim hy).2]
        exact ⟨rfl, rfl⟩
    obtain ⟨h1, h2⟩ := ih (i + 1) hg
    exact ⟨h1.trans hs2.1, h2.trans hs2.2⟩

theorem headerInv_of_eq {tp tp1 : TablePage} (h1 : fspv tp1 = fspv tp)
    (h2 : countv tp1 = countv tp) (h : headerInv tp) : headerInv tp1 := by
  unfold headerInv at *
  rw [h1, h2]
  exact h

/-- `mark_delete` never changes the free-space pointer or the tuple count. -/
theorem markDelete_pres {rid : RID} {tp tp1 : TablePage} {b : Bool}
    (h : markDelete rid tp = some (Except.ok b, tp1)) :
    fspv tp1 = fspv tp ∧ countv tp1 = countv tp := by
  unfold markDelete at h
  obtain ⟨c, s1, hx, hf⟩ := sbind_ok_elim h
  rw [(readF4_ok_elim hx).1] at hf
  by_cases h1 : c ≤ rid.slotNum
  · rw [if_pos h1] at hf
    rw [(sok_ok_elim hf).2]
    exact ⟨rfl, rfl⟩
  · rw [if_neg h1] at hf
    obtain ⟨s, s2, hy, hg⟩ := sbind_ok_elim hf
    rw [(getSlotSize_ok_elim hy).1] at hg
    by_cases h2 : isDeletedSize s
    · rw [if_pos h2] at hg
      rw [(sok_ok_elim hg).2]
      exact ⟨rfl, rfl⟩
    · rw [if_neg h2] at hg
      obtain ⟨u, s3, hz, hw⟩ := sbind_ok_elim hg
      have hs3 : fspv s3 = fspv tp ∧ countv s3 = countv tp := by
        by_cases h3 : 0 < s
        · rw [if_pos h3] at hz
          match u with
          | () => exact ⟨(setSlotSize_pres hz).1, (setSlotSize_pres hz).2.1⟩
        · rw [if_neg h3] at hz
          rw [(sok_ok_elim hz).2]
          exact ⟨rfl, rfl⟩
      obtain ⟨v, s4, he, hv⟩ := sbind_ok_elim hw
      cases v
      have hpg := stEdited_ok_elim he
      rw [(sok_ok_elim hv).2]
      exact ⟨(fspv_page_eq hpg).trans hs3.1, (countv_page_eq hpg).trans hs3.2⟩

/-- `rollback_delete` never changes the free-space pointer or the tuple
count. -/
theorem rollbackDelete_pres {rid : RID} {tp tp1 : TablePage}
    (h : rollbackDelete rid tp = some (Except.ok (), tp1)) :
    fspv tp1 = fspv tp ∧ countv tp1 = countv tp := by
  unfold rollbackDelete at h
  obtain ⟨c, s1, hx, hf⟩ := sbind_ok_elim h
  rw [(readF4_ok_elim hx).1] at hf
  by_cases h1 : c ≤ rid.slotNum
  · rw [if_pos h1] at hf
    exact absurd hf (by unfold serr; simp)
  · rw [if_neg h1] at hf
    obtain ⟨s, s2, hy, hg⟩ := sbind_ok_elim hf
    rw [(getSlotSize_ok_elim hy).1] at hg
    obtain ⟨u, s3, hz, hw⟩ := sbind_ok_elim hg
    have hs3 : fspv s3 = fspv tp ∧ countv s3 = countv tp := by
      by_cases h3 : isDeletedSize s
      · rw [if_pos h3] at hz
        match u with
        | () => exact ⟨(setSlotSize_pres hz).1, (setSlotSize_pres hz).2.1⟩
      · rw [if_neg h3] at hz
        rw [(sok_ok_elim hz).2]
        exact ⟨rfl, rfl⟩
    obtain ⟨v, s4, he, hv⟩ := sbind_ok_elim hw
    cases v
    have hpg := stEdited_ok_elim he
    rw [(sok_ok_elim hv).2]
    exact ⟨(fspv_page_eq hpg).trans hs3.1, (countv_page_eq hpg).trans hs3.2⟩

theorem fspv_lt (tp : TablePage) : fspv tp < M32 := readU32_lt tp.page.data 17

theorem countv_lt (tp : TablePage) : countv tp < M32 := readU32_lt tp.page.data 21

/-- `insert_tuple` preserves the header invariant: whenever it returns
`Ok` from a page satisfying the invariant, the resulting page satisfies it
again (both when a fresh slot is appended and when a free slot is reused,
and for tuples of arbitrary length, including the wrap-around corner of the
`u32` casts). -/
theorem insertTuple_pres {t : List Nat} {tp tp1 : TablePage} {b : Bool}
    (hwf : headerInv tp) (h : insertTuple t tp = some (Except.ok b, tp1)) :
    headerInv tp1 := by
  obtain ⟨hwf1, hwf2⟩ := hwf
  unfold insertTuple at h
  by_cases h0 : t.length = 0
  · rw [if_pos h0] at h
    exact absurd h (by unfold serr; simp)
  rw [if_neg h0, sbind_ok_apply _ _ tp tp (fremv tp) (getRem_eval tp)] at h
  by_cases h1 : fremv tp < (t.length + SIZE_TUPLE) % M32
  · rw [if_pos h1] at h
    rw [(sok_ok_elim h).2]
    exact ⟨hwf1, hwf2⟩
  rw [if_neg h1] at h
  obtain ⟨fs, s1, hfs, h⟩ := sbind_ok_elim h
  have hs1 : s1 = tp := by
    unfold getFreeSlotArray at hfs
    obtain ⟨c0, s0, hc0, hfs2⟩ := sbind_ok_elim hfs
    rw [(readF4_ok_elim hc0).1] at hfs2
    exact freeSlotAux_ok_elim c0 0 hfs2
  rw [hs1] at h
  obtain ⟨slot, s2, hslot, h⟩ := sbind_ok_elim h
  have hs2 : s2 = tp := by
    match fs with
    | some i => exact (sok_ok_elim hslot).2
    | none => exact (readF4_ok_elim hslot).1
  rw [hs2] at h
  obtain ⟨fsp0, s3, hfsp, h⟩ := sbind_ok_elim h
  obtain ⟨hs3, hfsp0, -⟩ := readF4_ok_elim hfsp
  rw [hs3] at h
  have hfsp0v : fsp0 = fspv tp := hfsp0
  subst hfsp0v
  obtain ⟨n1, s4, hw, h⟩ := sbind_ok_elim h
  obtain ⟨hF4095, hs4⟩ := tpWrite_ok_elim hw
  -- arithmetic about the new free-space pointer
  have hflt : fspv tp < M32 := fspv_lt tp
  have hremx : fremv tp = fspv tp - 25 - 8 * countv tp := fremv_exact ⟨hwf1, hwf2⟩
  have hF : w32sub (fspv tp) (t.length % M32) =
      (fspv tp % M32 + (M32 - t.length % M32 % M32)) % M32 := rfl
  have hB : 25 + 8 * countv tp + 8 ≤ w32sub (fspv tp) (t.length % M32) := by
    rw [hF]
    rw [M32_eq] at *
    simp only [SIZE_HDR_eq, SIZE_TUPLE_eq, PAGE_SIZE_eq] at hwf1 hwf2 h1
    omega
  have h25 : 25 ≤ w32sub (fspv tp) (t.length % M32) := by omega
  subst hs4
  have hcount4 : countv (setData tp (wbytes tp.page.data
      (w32sub (fspv tp) (t.length % M32))
      (t.take (rwEnd (w32sub (fspv tp) (t.length % M32)) t.length t.length -
        w32sub (fspv tp) (t.length % M32))))) = countv tp := by
    simp only [countv_setData]
    exact readU32_wbytes_left _ _ _ 21 (by omega)
  set F := w32sub (fspv tp) (t.length % M32) with hFdef
  set s4 := setData tp (wbytes tp.page.data F
      (t.take (rwEnd F t.length t.length - F))) with hs4def
  rw [sbind_ok_apply _ _ s4 _ () (setFsp_eval F s4)] at h
  set s5 := setData s4 (wbytes s4.page.data 17 (u32le F)) with hs5def
  have hfsp5 : fspv s5 = F := by
    rw [hs5def, fspv_after_setFsp]
    rw [M32_eq] at *
    rw [PAGE_SIZE_eq] at hF4095
    omega
  have hcount5 : countv s5 = countv tp := by
    rw [hs5def, countv_after_setFsp, hs4def]
    exact hcount4
  obtain ⟨u1, s6, hso, h⟩ := sbind_ok_elim h
  cases u1
  obtain ⟨hso1, hso2, -⟩ := setSlotOff_pres hso
  obtain ⟨u2, s7, hss, h⟩ := sbind_ok_elim h
  cases u2
  obtain ⟨hss1, hss2, -⟩ := setSlotSize_pres hss
  rw [sbind_ok_apply _ _ s7 s7 (countv s7) (getCount_eval s7)] at h
  have hfsp7 : fspv s7 = F := by rw [hss1, hso1, hfsp5]
  have hcount7 : countv s7 = countv tp := by rw [hss2, hso2, hcount5]
  by_cases hec : slot = countv s7
  · rw [if_pos hec, sbind_ok_apply _ _ s7 _ () (setCount_eval (w32add slot 1) s7)] at h
    set s8 := setData s7 (wbytes s7.page.data 21 (u32le (w32add slot 1))) with hs8def
    rw [sbind_ok_apply _ _ s8 _ () (stEdited_eval s8)] at h
    obtain ⟨-, htp1⟩ := sok_ok_elim h
    have hpage : tp1.page = s8.page := by rw [htp1]
    have hfsp1v : fspv tp1 = F := by
      rw [fspv_page_eq hpage, hs8def, fspv_after_setCount, hfsp7]
    have hcount1v : countv tp1 = (slot + 1) % M32 := by
      rw [countv_page_eq hpage, hs8def, countv_after_setCount]
      unfold w32add
      rw [M32_eq]
      omega
    have hslot508 : slot ≤ 508 := by
      rw [hec, hcount7]
      exact countv_le ⟨hwf1, hwf2⟩
    refine ⟨?_, ?_⟩
    · rw [hfsp1v, hcount1v, hec, hcount7]
      rw [M32_eq] at *
      simp only [SIZE_HDR_eq, SIZE_TUPLE_eq]
      omega
    · rw [hfsp1v, PAGE_SIZE_eq]
      rw [PAGE_SIZE_eq] at hF4095
      omega
  · rw [if_neg hec, sbind_ok_apply _ _ s7 s7 () rfl] at h
    rw [sbind_ok_apply _ _ s7 _ () (stEdited_eval s7)] at h
    obtain ⟨-, htp1⟩ := sok_ok_elim h
    have hpage : tp1.page = s7.page := by rw [htp1]
    refine ⟨?_, ?_⟩
    · rw [fspv_page_eq hpage, countv_page_eq hpage, hfsp7, hcount7]
      simp only [SIZE_HDR_eq, SIZE_TUPLE_eq]
      omega
    · rw [fspv_page_eq hpage, hfsp7, PAGE_SIZE_eq]
      rw [PAGE_SIZE_eq] at hF4095
      omega

theorem stPageId_eval (tp : TablePage) :
    stPageId tp = some (Except.ok tp.page.pageId, tp) := rfl

/-- `apply_delete` preserves the header invariant on well-formed pages.  On
such pages the only way it can return `Ok` at all is via a slot whose stored
size is `0` (for a genuinely tombstoned slot the destination
`free_space_pointer + tuple_size` of the compaction `copy_within` carries the
tombstone bit and exceeds the page, so the source panics); in the size-zero
case the free-space pointer is advanced by zero and the count is unchanged. -/
theorem applyDelete_pres {rid : RID} {tp tp1 : TablePage}
    (hwf : pageWF tp) (h : applyDelete rid tp = some (Except.ok (), tp1)) :
    headerInv tp1 := by
  obtain ⟨⟨hwf1, hwf2⟩, hslots⟩ := hwf
  unfold applyDelete at h
  rw [sbind_ok_apply _ _ tp tp tp.page.pageId (stPageId_eval tp)] at h
  by_cases h0 : tp.page.pageId ≠ rid.pageId
  · rw [if_pos h0] at h
    exact absurd h (by unfold serr; simp)
  rw [if_neg h0, sbind_ok_apply _ _ tp tp (countv tp) (getCount_eval tp)] at h
  by_cases h1 : countv tp ≤ rid.slotNum
  · rw [if_pos h1] at h
    exact absurd h (by unfold serr; simp)
  rw [if_neg h1] at h
  obtain ⟨s, s2, hsz, h⟩ := sbind_ok_elim h
  obtain ⟨hs2, hsv, hrange⟩ := getSlotSize_ok_elim hsz
  rw [hs2] at h
  by_cases h2 : isDeletedSize s = true
  swap
  · rw [if_pos (by simp [h2])] at h
    exact absurd h (by unfold serr; simp)
  rw [if_neg (by simp [h2])] at h
  obtain ⟨toff, s3, hto, h⟩ := sbind_ok_elim h
  obtain ⟨hs3, htov, -⟩ := getSlotOff_ok_elim hto
  rw [hs3] at h
  rw [sbind_ok_apply _ _ tp tp (fspv tp) (getFsp_eval tp)] at h
  by_cases h3 : toff < fspv tp
  · rw [if_pos h3] at h
    exact absurd h (by unfold serr; simp)
  rw [if_neg h3] at h
  obtain ⟨u1, s5, hss, h⟩ := sbind_ok_elim h
  cases u1
  obtain ⟨hss1, hss2, -⟩ := setSlotSize_pres hss
  obtain ⟨u2, s6, hso, h⟩ := sbind_ok_elim h
  cases u2
  obtain ⟨hso1, hso2, -⟩ := setSlotOff_pres hso
  rw [sbind_ok_apply _ _ s6 _ () (setFsp_eval (w32add (fspv tp) s) s6)] at h
  set s7 := setData s6 (wbytes s6.page.data 17 (u32le (w32add (fspv tp) s)))
    with hs7def
  obtain ⟨u3, s8, hcw, h⟩ := sbind_ok_elim h
  cases u3
  obtain ⟨hc1, hc2, hc3, hs8⟩ := stCopyWithin_ok_elim hcw
  -- the tombstone case cannot reach here: the copy destination is too large
  have hsM : s < M32 := by rw [hsv]; exact readU32_lt tp.page.data _
  have hs0 : s = 0 := by
    rcases (isDeletedSize_iff hsM).mp h2 with hz | hhi
    · exact hz
    exfalso
    have hslot := hslots rid.slotNum (by omega)
    rcases hslot with hz | ⟨hb1, hb2⟩
    · rw [hsv] at hhi
      rw [hz] at hhi
      omega
    have hb2x : toff + s % 2147483648 ≤ 4095 := by
      rw [htov, hsv]
      rw [PAGE_SIZE_eq] at hb2
      exact hb2
    have hsM2 : s < 4294967296 := by rw [M32_eq] at hsM; exact hsM
    have hwf2x : fspv tp ≤ 4095 := by rw [PAGE_SIZE_eq] at hwf2; exact hwf2
    have hd : w32add (fspv tp) s = fspv tp + s := by
      unfold w32add
      rw [M32_eq]
      omega
    have hc3x : fspv tp + s + (toff - fspv tp) ≤ 4095 := by
      rw [← hd]
      rw [PAGE_SIZE_eq] at hc3
      exact hc3
    omega
  subst hs0
  have hadd0 : w32add (fspv tp) 0 = fspv tp := by
    have hl := fspv_lt tp
    unfold w32add
    rw [M32_eq] at *
    omega
  -- header fields after the copy (its destination is the free-space pointer,
  -- which lies at or above byte 33 on a well-formed page with a live slot)
  have hfsp7 : fspv s7 = fspv tp := by
    rw [hs7def, fspv_after_setFsp, hadd0]
    have := fspv_lt tp
    rw [M32_eq] at *
    omega
  have hcount7 : countv s7 = countv tp := by
    rw [hs7def, countv_after_setFsp, hso2, hss2]
  have hfsp25 : 25 ≤ w32add (fspv tp) 0 := by
    rw [hadd0]
    simp only [SIZE_HDR_eq, SIZE_TUPLE_eq] at hwf1
    omega
  have hfsp8 : fspv s8 = fspv tp := by
    rw [hs8, fspv_setData,
      readU32_copyWithin_left s7.page.data _ _ _ 17 (by omega), ← hfsp7]
    rfl
  have hcount8 : countv s8 = countv tp := by
    rw [hs8, countv_setData,
      readU32_copyWithin_left s7.page.data _ _ _ 21 (by omega), ← hcount7]
    rfl
  rw [sbind_ok_apply _ _ s8 s8 (countv s8) (getCount_eval s8)] at h
  obtain ⟨u4, s9, hlp, h⟩ := sbind_ok_elim h
  cases u4
  obtain ⟨hlp1, hlp2⟩ := applyLoop_pres (countv s8) 0 hlp
  rw [sbind_ok_apply _ _ s9 _ () (stEdited_eval s9)] at h
  obtain ⟨-, htp1⟩ := sok_ok_elim h
  have hpage : tp1.page = s9.page := by rw [htp1]
  refine ⟨?_, ?_⟩
  · rw [fspv_page_eq hpage, countv_page_eq hpage, hlp1, hlp2, hfsp8, hcount8]
    exact hwf1
  · rw [fspv_page_eq hpage, hlp1, hfsp8]
    exact hwf2

/-- `update_tuple` preserves the header invariant on well-formed pages: the
new free-space pointer `fsp + old_size - new_size` stays at or above the
header (by the free-space check) and inside the page (by the success of the
compaction `copy_within`). -/
theorem updateTuple_pres {t : Tuple} {tp tp1 : TablePage}
    (hwf : pageWF tp) (h : updateTuple t tp = some (Except.ok (), tp1)) :
    headerInv tp1 := by
  obtain ⟨⟨hwf1, hwf2⟩, hslots⟩ := hwf
  unfold updateTuple at h
  match hr : t.rid with
  | none =>
    rw [hr] at h
    exact absurd h (by unfold serr; simp)
  | some rid =>
  rw [hr] at h
  simp only [] at h
  by_cases h0 : t.data.length = 0
  · rw [if_pos h0] at h
    exact absurd h (by unfold serr; simp)
  rw [if_neg h0, sbind_ok_apply _ _ tp tp (countv tp) (getCount_eval tp)] at h
  by_cases h1 : countv tp ≤ rid.slotNum
  · rw [if_pos h1] at h
    exact absurd h (by unfold serr; simp)
  rw [if_neg h1] at h
  obtain ⟨s, s2, hsz, h⟩ := sbind_ok_elim h
  obtain ⟨hs2, hsv, hrange⟩ := getSlotSize_ok_elim hsz
  rw [hs2] at h
  by_cases h2 : isDeletedSize s = true
  · rw [if_pos h2] at h
    exact absurd h (by unfold serr; simp)
  rw [if_neg h2] at h
  have hsM : s < M32 := by rw [hsv]; exact readU32_lt tp.page.data _
  obtain ⟨hsne, hslt⟩ := isDeletedSize_false hsM (by simpa using h2)
  rw [sbind_ok_apply _ _ tp tp (fremv tp) (getRem_eval tp)] at h
  by_cases h3 : w32add (fremv tp) s < t.data.length % M32
  · rw [if_pos h3] at h
    exact absurd h (by unfold serr; simp)
  rw [if_neg h3] at h
  obtain ⟨toff, s3, hto, h⟩ := sbind_ok_elim h
  obtain ⟨hs3, htov, -⟩ := getSlotOff_ok_elim hto
  rw [hs3] at h
  rw [sbind_ok_apply _ _ tp tp (fspv tp) (getFsp_eval tp)] at h
  by_cases h4 : toff < fspv tp
  · rw [if_pos h4] at h
    exact absurd h (by unfold serr; simp)
  rw [if_neg h4] at h
  obtain ⟨u1, sc, hcw, h⟩ := sbind_ok_elim h
  cases u1
  obtain ⟨hc1, hc2, hc3, hscdef⟩ := stCopyWithin_ok_elim hcw
  -- arithmetic: the copy destination is exactly fsp + s - newSize, it is
  -- bounded below by the header and above by the page end
  have hslotWF := hslots rid.slotNum (by omega)
  have hb2 : toff + s ≤ 4095 := by
    rcases hslotWF with hz | ⟨hbb1, hbb2⟩
    · rw [hsv] at hsne; exact absurd hz hsne
    · rw [htov, hsv]
      rw [PAGE_SIZE_eq] at hbb2
      have : sizev tp rid.slotNum % 2147483648 = sizev tp rid.slotNum := by
        rw [← hsv]
        exact Nat.mod_eq_of_lt hslt
      omega
  have hremx : fremv tp = fspv tp - 25 - 8 * countv tp :=
    fremv_exact ⟨hwf1, hwf2⟩
  have hch : t.data.length % M32 ≤ fremv tp + s := by
    have hwadd : w32add (fremv tp) s = fremv tp + s := by
      unfold w32add
      rw [M32_eq] at *
      rw [PAGE_SIZE_eq] at hwf2
      simp only [SIZE_HDR_eq, SIZE_TUPLE_eq] at hwf1
      omega
    rw [← hwadd]
    omega
  have hflt : fspv tp < M32 := fspv_lt tp
  have hwf1x : 25 + 8 * countv tp ≤ fspv tp := by
    simp only [SIZE_HDR_eq, SIZE_TUPLE_eq] at hwf1
    exact hwf1
  have hwf2x : fspv tp ≤ 4095 := by rw [PAGE_SIZE_eq] at hwf2; exact hwf2
  have hchm : t.data.length % 4294967296 ≤ fremv tp + s := by
    rw [M32_eq] at hch
    exact hch
  have hE : u64sub (fspv tp + s) t.data.length =
      ((fspv tp + s) % 18446744073709551616 +
        (18446744073709551616 - t.data.length % 18446744073709551616)) %
        18446744073709551616 := by
    unfold u64sub
    rw [M64_eq]
  have hc3u : ((fspv tp + s) % 18446744073709551616 +
      (18446744073709551616 - t.data.length % 18446744073709551616)) %
      18446744073709551616 + (toff - fspv tp) ≤ 4095 := by
    rw [← hE]
    rw [PAGE_SIZE_eq] at hc3
    exact hc3
  have key : u64sub (fspv tp + s) t.data.length =
        fspv tp + s - t.data.length % 18446744073709551616 ∧
      t.data.length % 18446744073709551616 ≤ fspv tp + s ∧
      25 + 8 * countv tp ≤ u64sub (fspv tp + s) t.data.length ∧
      u64sub (fspv tp + s) t.data.length ≤ 4095 := by
    rw [hE]
    omega
  have hc1' : 1 ≤ countv tp := by omega
  -- the header fields after the copy
  have hcountc : countv sc = countv tp := by
    rw [hscdef, countv_setData]
    exact readU32_copyWithin_left tp.page.data _ _ _ 21 (by
      have := key.2.2.1
      omega)
  rw [sbind_ok_apply _ _ sc _ ()
    (setFsp_eval (u64sub (fspv tp + s) t.data.length % M32) sc)] at h
  set sd := setData sc (wbytes sc.page.data 17
    (u32le (u64sub (fspv tp + s) t.data.length % M32))) with hsddef
  have hfspd : fspv sd = u64sub (fspv tp + s) t.data.length := by
    rw [hsddef, fspv_after_setFsp]
    have h1k := key.2.2.1
    have h2k := key.2.2.2
    rw [M32_eq] at *
    omega
  have hcountd : countv sd = countv tp := by
    rw [hsddef, countv_after_setFsp, hcountc]
  -- the tuple-bytes write lands at dest + (toff - fsp) ≥ dest ≥ 33
  have hwoff : u64sub (toff + s) t.data.length =
      u64sub (fspv tp + s) t.data.length + (toff - fspv tp) := by
    have hE2 : u64sub (toff + s) t.data.length =
        ((toff + s) % 18446744073709551616 +
          (18446744073709551616 - t.data.length % 18446744073709551616)) %
          18446744073709551616 := by
      unfold u64sub
      rw [M64_eq]
    rw [hE2, key.1]
    omega
  obtain ⟨n1, se, hwX, h⟩ := sbind_ok_elim h
  obtain ⟨-, hsedef⟩ := tpWrite_ok_elim hwX
  have hfspe : fspv se = fspv sd := by
    rw [hsedef, fspv_setData]
    exact readU32_wbytes_left _ _ _ 17 (by
      rw [hwoff]
      have := key.2.2.1
      omega)
  have hcounte : countv se = countv sd := by
    rw [hsedef, countv_setData]
    exact readU32_wbytes_left _ _ _ 21 (by
      rw [hwoff]
      have := key.2.2.1
      omega)
  rw [sbind_ok_apply _ _ se se (countv se) (getCount_eval se)] at h
  obtain ⟨u2, sf, hlp, h⟩ := sbind_ok_elim h
  cases u2
  obtain ⟨hlp1, hlp2⟩ := updateLoop_pres (countv se) 0 hlp
  obtain ⟨u3, sg, hsoX, h⟩ := sbind_ok_elim h
  cases u3
  obtain ⟨hsog1, hsog2, -⟩ := setSlotOff_pres hsoX
  obtain ⟨u4, sh2, hssX, h⟩ := sbind_ok_elim h
  cases u4
  obtain ⟨hsh1, hsh2, -⟩ := setSlotSize_pres hssX
  rw [sbind_ok_apply _ _ sh2 _ () (stEdited_eval sh2)] at h
  obtain ⟨-, htp1⟩ := sok_ok_elim h
  have hpage : tp1.page = sh2.page := by rw [htp1]
  have hfspf : fspv tp1 = u64sub (fspv tp + s) t.data.length := by
    rw [fspv_page_eq hpage, hsh1, hsog1, hlp1, hfspe, hfspd]
  have hcountf : countv tp1 = countv tp := by
    rw [countv_page_eq hpage, hsh2, hsog2, hlp2, hcounte, hcountd]
  refine ⟨?_, ?_⟩
  · rw [hfspf, hcountf]
    simp only [SIZE_HDR_eq, SIZE_TUPLE_eq]
    exact key.2.2.1
  · rw [hfspf, PAGE_SIZE_eq]
    exact key.2.2.2

/-- `insert_tuple` returns `Ok(false)` only from the free-space check, with
the page untouched: every later exit is an error, a panic, or `Ok(true)`. -/
theorem insertTuple_ok_false_elim {t : List Nat} {tp tp1 : TablePage}
    (h : insertTuple t tp = some (Except.ok false, tp1)) :
    t.length ≠ 0 ∧ fremv tp < (t.length + SIZE_TUPLE) % M32 ∧ tp1 = tp := by
  unfold insertTuple at h
  by_cases h0 : t.length = 0
  · rw [if_pos h0] at h
    exact absurd h (by unfold serr; simp)
  rw [if_neg h0, sbind_ok_apply _ _ tp tp (fremv tp) (getRem_eval tp)] at h
  by_cases h1 : fremv tp < (t.length + SIZE_TUPLE) % M32
  · rw [if_pos h1] at h
    exact ⟨h0, h1, (sok_ok_elim h).2⟩
  rw [if_neg h1] at h
  exfalso
  obtain ⟨fs, s1, hfs, h⟩ := sbind_ok_elim h
  obtain ⟨slot, s2, hslot, h⟩ := sbind_ok_elim h
  obtain ⟨fsp0, s3, hfsp, h⟩ := sbind_ok_elim h
  obtain ⟨n1, s4, hw, h⟩ := sbind_ok_elim h
  obtain ⟨u1, s5, h5, h⟩ := sbind_ok_elim h
  obtain ⟨u2, s6, h6, h⟩ := sbind_ok_elim h
  obtain ⟨u3, s7, h7, h⟩ := sbind_ok_elim h
  obtain ⟨c2, s8, h8, h⟩ := sbind_ok_elim h
  obtain ⟨u4, s9, h9, h⟩ := sbind_ok_elim h
  obtain ⟨u5, s10, h10, h⟩ := sbind_ok_elim h
  exact absurd (sok_ok_elim h).1 (by simp)

/-- `insert_tuple` succeeds whenever the page is well-formed in its header
and the remaining free space is at least `length + SLOT_SIZE`. -/
theorem insertTuple_complete {t : List Nat} {tp : TablePage}
    (hwf : headerInv tp) (hne : ¬ t.length = 0)
    (hsp : t.length + SIZE_TUPLE ≤ fremv tp) :
    ∃ tp1, insertTuple t tp = some (Except.ok true, tp1) := by
  have hrx : fremv tp = fspv tp - 25 - 8 * countv tp := fremv_exact hwf
  have hc508 : countv tp ≤ 508 := countv_le hwf
  have hwf1 : 25 + 8 * countv tp ≤ fspv tp := by
    have := hwf.1
    simp only [SIZE_HDR_eq, SIZE_TUPLE_eq] at this
    exact this
  have hwf2 : fspv tp ≤ 4095 := by
    have := hwf.2
    rw [PAGE_SIZE_eq] at this
    exact this
  have hspx : t.length + 8 ≤ fspv tp - 25 - 8 * countv tp := by
    simp only [SIZE_TUPLE_eq] at hsp
    omega
  unfold insertTuple
  rw [if_neg hne, sbind_ok_apply _ _ tp tp (fremv tp) (getRem_eval tp),
    if_neg (by
      simp only [SIZE_TUPLE_eq]
      rw [M32_eq]
      omega)]
  obtain ⟨r, hr, hran⟩ := freeSlotAux_total (countv tp) 0 tp (by omega)
  have hgfs : getFreeSlotArray tp = some (Except.ok r, tp) := by
    unfold getFreeSlotArray
    rw [sbind_ok_apply _ _ tp tp (countv tp) (getCount_eval tp)]
    exact hr
  rw [sbind_ok_apply _ _ tp tp r hgfs]
  have hslotm : ∃ slot, (match r with
      | some i => sok i
      | none => getTupleCount) tp = some (Except.ok slot, tp) ∧ slot ≤ 507 ∧
      (r = none → slot = countv tp) := by
    cases r with
    | none => exact ⟨countv tp, getCount_eval tp, by omega, fun _ => rfl⟩
    | some i =>
      refine ⟨i, rfl, ?_, by intro hh; exact absurd hh (by simp)⟩
      have := hran i rfl
      omega
  obtain ⟨slot, hslotv, h507, -⟩ := hslotm
  rw [sbind_ok_apply _ _ tp tp slot hslotv,
    sbind_ok_apply _ _ tp tp (fspv tp) (getFsp_eval tp)]
  have hF : w32sub (fspv tp) (t.length % M32) = fspv tp - t.length := by
    unfold w32sub
    rw [M32_eq]
    omega
  rw [hF]
  rw [sbind_ok_apply _ _ tp _ t.length
    (tpWrite_full t (fspv tp - t.length) tp (by rw [PAGE_SIZE_eq]; omega))]
  set s4 := setData tp (wbytes tp.page.data (fspv tp - t.length) t) with hs4
  rw [sbind_ok_apply _ _ s4 _ () (setFsp_eval (fspv tp - t.length) s4)]
  set s5 := setData s4 (wbytes s4.page.data 17 (u32le (fspv tp - t.length)))
    with hs5
  rw [sbind_ok_apply _ _ s5 _ ()
    (setSlotOff_eval slot (fspv tp - t.length) s5 (by rw [PAGE_SIZE_eq]; omega))]
  set s6 := setData s5 (wbytes s5.page.data (25 + 8 * slot)
    (u32le (fspv tp - t.length))) with hs6
  rw [sbind_ok_apply _ _ s6 _ ()
    (setSlotSize_eval slot (t.length % M32) s6 (by rw [PAGE_SIZE_eq]; omega))]
  set s7 := setData s6 (wbytes s6.page.data (29 + 8 * slot)
    (u32le (t.length % M32))) with hs7
  rw [sbind_ok_apply _ _ s7 s7 (countv s7) (getCount_eval s7)]
  by_cases hec : slot = countv s7
  · rw [if_pos hec, sbind_ok_apply _ _ s7 _ ()
      (setCount_eval (w32add slot 1) s7)]
    set s8 := setData s7 (wbytes s7.page.data 21 (u32le (w32add slot 1)))
    rw [sbind_ok_apply _ _ s8 _ () (stEdited_eval s8)]
    exact ⟨_, rfl⟩
  · rw [if_neg hec, sbind_ok_apply _ _ s7 s7 () rfl,
      sbind_ok_apply _ _ s7 _ () (stEdited_eval s7)]
    exact ⟨_, rfl⟩

/-- C1: the claim says `read_page` of a page past end-of-file is a miss (0
bytes read, not an error) and that `fetch_page(9999)` on a fresh database
returns none without error.  The code does the opposite: `read_page` returns
`Err` for every absent page, and `fetch_page(9999)` on a fresh (empty)
database propagates that error instead of returning none. -/
theorem c1_read_page_miss_is_error :
    (∀ (dm : DiskManager) (id : Nat), dm.havePage id = false →
      dm.readPage id = some (Except.error ())) ∧
    fetchPage 9999 freshPool = some (Except.error (), freshPool) := by
  constructor
  · intro dm id h
    unfold DiskManager.readPage
    simp [h]
  · rfl

/-- C1 witness: the general miss-is-error statement applied to the empty
database file and page id 9999. -/
theorem c1_witness :
    DiskManager.readPage ⟨fun _ => 0, 0, 0, 0⟩ 9999 = some (Except.error ()) :=
  c1_read_page_miss_is_error.1 ⟨fun _ => 0, 0, 0, 0⟩ 9999 rfl

/-- C2: the claim says `create_page(id)` returns none on a collision and
otherwise creates the page (reading zeros past end-of-file).  The code
matches the collision half, but in the other case `read_page` errors for a
page past end-of-file, so `create_page` returns `Err` and can never create
a page. -/
theorem c2_create_page_collides_or_errors (bp : BufferPool) (id : Nat) :
    (bp.diskManager.havePage id = true →
      createPage id bp = some (Except.ok none, bp)) ∧
    (bp.diskManager.havePage id = false →
      createPage id bp = some (Except.error (), bp)) := by
  constructor
  · intro h
    unfold createPage
    simp [h]
  · intro h
    unfold createPage readDiskPage DiskManager.readPage
    simp [h]

/-- C2 witness: a collision on page 0 of a one-page file returns none; the
create path on a fresh (empty) file returns an error instead of a page. -/
theorem c2_witness :
    createPage 0 pool4095 = some (Except.ok none, pool4095) ∧
    createPage 1 freshPool = some (Except.error (), freshPool) :=
  ⟨(c2_create_page_collides_or_errors pool4095 0).1 rfl,
   (c2_create_page_collides_or_errors freshPool 1).2 rfl⟩

/-- C3: the claim says a cache-miss `fetch_page(id)` returns a table page
whose bytes equal the on-disk bytes `b`, preserving the stored header
fields.  The code instead passes the bytes through `TablePage::new`, which
resets `tuple_count` to 0 and `free_space_ptr` to `PAGE_SIZE` (and, for
`id > 1`, overwrites `prev_page_id`): here the disk image stores
`tuple_count = 5` and `free_space_ptr = 1000`, but the fetched page reports
0 and 4095 (only the tombstone byte at offset 4 survives). -/
theorem c3_fetch_page_resets_header_fields :
    readU32 c3pageBytes 21 = 5 ∧
    readU32 c3pageBytes 17 = 1000 ∧
    fetched3.map (fun q => (countv q, fspv q, byteAt q.page.data 4)) =
      some (0, 4095, 1) := ⟨rfl, rfl, rfl⟩

/-- C4: the claim says `apply_delete` on a tombstoned slot succeeds,
advancing `free_space_ptr` by the tuple's real (low-bit) size.  The code
adds the raw size field with the tombstone bit still set, so the
compaction `copy_within` destination `free_space_ptr + tuple_size`
exceeds the page and the call panics: on the reachable page holding one
tombstoned 1-byte tuple (raw size `1 | 1 << 31`), `apply_delete((1,0))`
panics instead of succeeding. -/
theorem c4_apply_delete_panics_on_tombstone :
    sizev c4page 0 = 2147483649 ∧ pageWF c4page ∧
    applyDelete ⟨1, 0⟩ c4page = none := by
  refine ⟨rfl, by decide, rfl⟩

/-- C5: after every mutating table-page operation that completes normally on
a well-formed page, the header invariant
`SIZE_HEADER + SLOT_SIZE * tuple_count ≤ free_space_ptr ≤ PAGE_SIZE` holds,
and under it `free_space_remaining` is the exact (non-negative, non-wrapped)
difference. -/
theorem c5_header_invariant_preserved :
    (∀ (t : List Nat) (tp tp1 : TablePage) (b : Bool), pageWF tp →
      insertTuple t tp = some (Except.ok b, tp1) → headerInv tp1) ∧
    (∀ (rid : RID) (tp tp1 : TablePage) (b : Bool), pageWF tp →
      markDelete rid tp = some (Except.ok b, tp1) → headerInv tp1) ∧
    (∀ (rid : RID) (tp tp1 : TablePage), pageWF tp →
      applyDelete rid tp = some (Except.ok (), tp1) → headerInv tp1) ∧
    (∀ (rid : RID) (tp tp1 : TablePage), pageWF tp →
      rollbackDelete rid tp = some (Except.ok (), tp1) → headerInv tp1) ∧
    (∀ (t : Tuple) (tp tp1 : TablePage), pageWF tp →
      updateTuple t tp = some (Except.ok (), tp1) → headerInv tp1) ∧
    (∀ tp : TablePage, headerInv tp →
      fremv tp = fspv tp - SIZE_TABLE_PAGE_HEADER - SIZE_TUPLE * countv tp) := by
  refine ⟨?_, ?_, ?_, ?_, ?_, ?_⟩
  · intro t tp tp1 b hwf h
    exact insertTuple_pres hwf.1 h
  · intro rid tp tp1 b hwf h
    obtain ⟨h1, h2⟩ := markDelete_pres h
    exact headerInv_of_eq h1 h2 hwf.1
  · intro rid tp tp1 hwf h
    exact applyDelete_pres hwf h
  · intro rid tp tp1 hwf h
    obtain ⟨h1, h2⟩ := rollbackDelete_pres h
    exact headerInv_of_eq h1 h2 hwf.1
  · intro t tp tp1 hwf h
    exact updateTuple_pres hwf h
  · intro tp h
    simp only [SIZE_HDR_eq, SIZE_TUPLE_eq]
    exact fremv_exact h

/-- C5 witness: the insert clause applied to the fresh page and the 1-byte
tuple `[0xAA]`, whose run evaluates to `Ok(true)` with post-state
`p1after`. -/
theorem c5_witness : headerInv p1after := by
  exact c5_header_invariant_preserved.1 [170] freshTP p1after true (by decide) rfl

/-- C6 counterexample: a page with a reusable free slot (slot 0 stored size
0) and `free_space_remaining = 3` rejects a 3-byte tuple — the claim's
"when a free slot is reused, `free_space_remaining ≥ t.length` suffices"
predicts success at this input. -/
theorem c6_counterexample :
    countv pFree = 1 ∧ sizev pFree 0 = 0 ∧ fremv pFree = 3 ∧ pageWF pFree ∧
    insertTuple [9, 9, 9] pFree = some (Except.ok false, pFree) := by
  refine ⟨rfl, rfl, rfl, by decide, rfl⟩

/-- C6 (amended): `insert_tuple` of a non-empty tuple returns `Ok(false)`
exactly when `free_space_remaining < length + SLOT_SIZE`, whether or not a
free slot is reused; in particular `free_space_remaining = length +
SLOT_SIZE` succeeds on a well-formed page (so one byte less fails). -/
theorem c6_insert_space_check (tp : TablePage) (t : List Nat) :
    (∀ tp1, insertTuple t tp = some (Except.ok false, tp1) →
      fremv tp < (t.length + SIZE_TUPLE) % M32 ∧ tp1 = tp) ∧
    (¬ t.length = 0 → fremv tp < (t.length + SIZE_TUPLE) % M32 →
      insertTuple t tp = some (Except.ok false, tp)) ∧
    (pageWF tp → ¬ t.length = 0 → fremv tp = t.length + SIZE_TUPLE →
      okVal (insertTuple t tp) = some true) := by
  refine ⟨?_, ?_, ?_⟩
  · intro tp1 h
    obtain ⟨-, h2, h3⟩ := insertTuple_ok_false_elim h
    exact ⟨h2, h3⟩
  · intro h0 h1
    unfold insertTuple
    rw [if_neg h0, sbind_ok_apply _ _ tp tp (fremv tp) (getRem_eval tp),
      if_pos h1]
    rfl
  · intro hwf h0 h1
    obtain ⟨tp1, h⟩ := insertTuple_complete hwf.1 h0 (by omega)
    rw [h]
    rfl

/-- C6 witness: the reject direction at the free-slot page with
`free_space_remaining = 3` and a 3-byte tuple, and the success direction at
an empty page with `free_space_remaining = 1 + SLOT_SIZE` and a 1-byte
tuple. -/
theorem c6_witness :
    insertTuple [9, 9, 9] pFree = some (Except.ok false, pFree) ∧
    okVal (insertTuple [7] pB) = some true := by
  exact ⟨(c6_insert_space_check pFree [9, 9, 9]).2.1 (by decide) (by decide),
    (c6_insert_space_check pB [7]).2.2 (by decide) (by decide) (by decide)⟩

/-- C7: the claim says `page_is_deleted()` is false after `TablePage::new`
and true after `delete_page()`, with `delete_page` setting the offset-4
tombstone flag and marking the page dirty.  The code's comparison is
inverted (`flag[0] == 0`): a fresh page already reads as deleted, so
`delete_page` returns early without writing the flag (byte 4 stays 0) and
without marking anything dirty. -/
theorem c7_page_tombstone_inverted :
    okVal (pageIsDeleted freshTP) = some true ∧
    okVal (deletePage freshTP) = some true ∧
    (okPost (deletePage freshTP)).map (fun q => byteAt q.page.data 4) =
      some 0 := ⟨rfl, rfl, rfl⟩

/-- C8: the claim says `insert_record(n, r)` stores `n` zero-padded to 32
bytes so that `get_root_id(n)` finds it.  The code writes only `n.len()`
bytes, leaving stale bytes behind: after inserting "ab" and "cd", deleting
"ab" (which shifts "cd" down, leaving a stale copy), inserting "e" returns
true but stores the bytes "ed", so `get_root_id("e")` returns none (while
"cd" is still found with root 2). -/
theorem c8_stale_name_bytes_break_lookup :
    okVal (insertRecord eName 3 header3) = some true ∧
    okVal (getRootId eName header4) = some none ∧
    okVal (getRootId cdName header4) = some (some 2) := ⟨rfl, rfl, rfl⟩

/-- C9 counterexample: `read_data` with a 4-byte destination buffer,
offset 0 and `len = 2` panics (the clamped source slice has length 2, the
destination 4, and `copy_from_slice` requires equal lengths) — the claim
predicts `Ok` for every `offset ≤ PAGE_SIZE`. -/
theorem c9_counterexample : Page.read_data zeroPage 4 0 2 = none := rfl

/-- C9 (amended): for `offset ≤ PAGE_SIZE`, `read_data(dst, offset, len)`
returns `Ok(dst.len())` — the transfer clamped to the destination size —
precisely when `dst.len() ≤ len` and `offset + dst.len() ≤ PAGE_SIZE`;
when the clamped source slice is shorter than `dst` the copy panics; and
`offset > PAGE_SIZE` returns an error. -/
theorem c9_read_data_amended (p : Page) (dstLen offset len : Nat) :
    (offset ≤ PAGE_SIZE → dstLen ≤ len → offset + dstLen ≤ PAGE_SIZE →
      Page.read_data p dstLen offset len =
        some (Except.ok (dstLen, readBytes p.data offset dstLen))) ∧
    (PAGE_SIZE < offset →
      Page.read_data p dstLen offset len = some (Except.error ())) ∧
    (offset ≤ PAGE_SIZE → min len (PAGE_SIZE - offset) < dstLen →
      Page.read_data p dstLen offset len = none) := by
  refine ⟨?_, ?_, ?_⟩
  · intro h1 h2 h3
    unfold Page.read_data
    have he : rwEnd offset len dstLen - offset = dstLen := by
      simp only [rwEnd, PAGE_SIZE_eq] at *
      omega
    rw [if_neg (by omega), if_pos he, he]
  · intro h1
    unfold Page.read_data
    rw [if_pos h1]
  · intro h1 h2
    unfold Page.read_data
    rw [if_neg (by omega), if_neg (by
      simp only [rwEnd, PAGE_SIZE_eq] at *
      omega)]

/-- C9 witness: the three clauses at concrete inputs — a full in-range read,
an out-of-range offset, and a destination longer than the requested
length. -/
theorem c9_witness :
    Page.read_data zeroPage 4 10 4 =
      some (Except.ok (4, readBytes zeroPage.data 10 4)) ∧
    Page.read_data zeroPage 4 4096 4 = some (Except.error ()) ∧
    Page.read_data zeroPage 3 0 1 = none := by
  exact ⟨(c9_read_data_amended zeroPage 4 10 4).1 (by decide) (by decide)
      (by decide),
    (c9_read_data_amended zeroPage 4 4096 4).2.1 (by decide),
    (c9_read_data_amended zeroPage 3 0 1).2.2 (by decide) (by decide)⟩

/-- C10: `mark_delete(rid)` never compares `rid.page_id` with the page's
own id: on any page whose slot `rid.slot_num` is live, it tombstones that
slot and returns true even for a foreign `rid.page_id` — while
`apply_delete` and `get_tuple` reject a foreign page id with an error. -/
theorem c10_mark_delete_ignores_rid_page_id (tp : TablePage) (rid : RID)
    (s : Nat) (h1 : rid.slotNum < countv tp)
    (h2 : 8 * rid.slotNum + 33 ≤ PAGE_SIZE)
    (h3 : sizev tp rid.slotNum = s) (h4 : s ≠ 0) (h5 : s < 2147483648) :
    (∃ tp1, markDelete rid tp = some (Except.ok true, tp1) ∧
      sizev tp1 rid.slotNum = s + 2147483648 ∧
      fspv tp1 = fspv tp ∧ countv tp1 = countv tp) ∧
    (rid.pageId ≠ tp.page.pageId →
      (applyDelete rid tp).map Prod.fst = some (Except.error ()) ∧
      (getTuple rid tp).map Prod.fst = some (Except.error ())) := by
  have hnd : isDeletedSize s = false := by
    unfold isDeletedSize DELETE_MASK
    rw [land_two_pow31_eq_zero h5]
    simp [h4]
  constructor
  · unfold markDelete
    rw [sbind_ok_apply _ _ tp tp (countv tp) (getCount_eval tp),
      if_neg (by omega),
      sbind_ok_apply _ _ tp tp (sizev tp rid.slotNum)
        (getSlotSize_eval rid.slotNum tp h2),
      h3, if_neg (by simp [hnd]),
      if_pos (by omega),
      sbind_ok_apply _ _ tp _ ()
        (setSlotSize_eval rid.slotNum (setDeletedFlag s) tp h2)]
    set sA := setData tp (wbytes tp.page.data (29 + 8 * rid.slotNum)
      (u32le (setDeletedFlag s))) with hsA
    rw [sbind_ok_apply _ _ sA _ () (stEdited_eval sA)]
    refine ⟨_, rfl, ?_, ?_, ?_⟩
    · show sizev sA rid.slotNum = s + 2147483648
      rw [hsA, sizev_setData, readU32_wbytes_u32le]
      unfold setDeletedFlag DELETE_MASK
      rw [lor_two_pow31 h5, M32_eq]
      omega
    · show fspv sA = fspv tp
      rw [hsA, fspv_setData]
      exact readU32_wbytes_left _ _ _ 17 (by omega)
    · show countv sA = countv tp
      rw [hsA, countv_setData]
      exact readU32_wbytes_left _ _ _ 21 (by omega)
  · intro hne
    constructor
    · unfold applyDelete
      rw [sbind_ok_apply _ _ tp tp tp.page.pageId (stPageId_eval tp),
        if_pos (Ne.symm hne)]
      rfl
    · unfold getTuple
      rw [sbind_ok_apply _ _ tp tp tp.page.pageId (stPageId_eval tp),
        if_pos (Ne.symm hne)]
      rfl

/-- C10 witness: the page with one live 2-byte tuple in slot 0 and the
foreign RID (99, 0): `mark_delete` succeeds, `apply_delete` and `get_tuple`
error. -/
theorem c10_witness :
    okVal (markDelete ⟨99, 0⟩ c10page) = some true ∧
    (applyDelete ⟨99, 0⟩ c10page).map Prod.fst = some (Except.error ()) ∧
    (getTuple ⟨99, 0⟩ c10page).map Prod.fst = some (Except.error ()) := by
  obtain ⟨⟨tp1, hm, -, -, -⟩, hrest⟩ :=
    c10_mark_delete_ignores_rid_page_id c10page ⟨99, 0⟩ 2 (by decide)
      (by decide) (by decide) (by decide) (by decide)
  obtain ⟨ha, hg⟩ := hrest (by decide)
  refine ⟨by rw [hm]; rfl, ha, hg⟩
